import Mathlib

/-!
Shallow embedding of the absorption-bot analytics core.

Numbers: JavaScript float64 values are modelled as exact rationals (ℚ);
timestamps (milliseconds) as ℕ.  All definitions are translated from the
repository source:

  * `RollingStats`        — utils/rollingStats.js
  * `FootprintEngine`     — src/engines/FootprintEngine.js
  * `SwingDetector`       — detectors/SwingDetector.js (pool-based variant)
  * `AbsorptionDetector`  — detectors/AbsorptionDetector.js (pool-based variant)
  * `CandleBuilder`       — engines/CandleBuilder.js
-/

namespace AbsorptionBot

/-- Configuration values read by the core (config/index.js), flattened. -/
structure Config where
  deltaMultiplier : ℚ
  volumeMultiplier : ℚ
  rollingWindow : ℕ
  priceClusterSize : ℚ
  lookback : ℕ
  maxPoolSize : ℕ
  minLevelsSwept : ℕ
deriving Repr, DecidableEq

/-- One OHLCV candle (1m), as produced by CandleBuilder.handleKlineMessage. -/
structure Candle where
  openTime : ℕ
  closeTime : ℕ
  -- field `open` in JS; `open` is a Lean keyword
  openPrice : ℚ
  high : ℚ
  low : ℚ
  close : ℚ
  volume : ℚ
deriving Repr, DecidableEq

/-- A coarse (15m) aggregate candle (CandleBuilder's current15m record). -/
structure Agg where
  windowId : ℕ
  openTime : ℕ
  -- field `open` in JS; `open` is a Lean keyword
  openPrice : ℚ
  high : ℚ
  low : ℚ
  close : ℚ
  volume : ℚ
  count : ℕ
deriving Repr, DecidableEq

/-! ## RollingStats (utils/rollingStats.js) -/

/-- State of utils/rollingStats.js: three parallel bounded lists. -/
structure RollingStats where
  windowSize : ℕ
  volumes : List ℚ
  absDeltaValues : List ℚ
  deltaValues : List ℚ
deriving Repr, DecidableEq

namespace RollingStats

/-- JS `new RollingStats(windowSize)`. -/
def init (windowSize : ℕ) : RollingStats :=
  { windowSize := windowSize, volumes := [], absDeltaValues := [], deltaValues := [] }

/-- JS `push(totalVolume, delta)`: append, then drop the oldest if over the bound. -/
def push (s : RollingStats) (totalVolume delta : ℚ) : RollingStats :=
  let volumes := s.volumes ++ [totalVolume]
  let absDeltaValues := s.absDeltaValues ++ [|delta|]
  let deltaValues := s.deltaValues ++ [delta]
  if volumes.length > s.windowSize then
    { s with volumes := volumes.tail, absDeltaValues := absDeltaValues.tail,
             deltaValues := deltaValues.tail }
  else
    { s with volumes := volumes, absDeltaValues := absDeltaValues, deltaValues := deltaValues }

/-- JS `get avgVolume()`. -/
def avgVolume (s : RollingStats) : ℚ :=
  if s.volumes.length = 0 then 0 else s.volumes.sum / s.volumes.length

/-- JS `get avgAbsDelta()`. -/
def avgAbsDelta (s : RollingStats) : ℚ :=
  if s.absDeltaValues.length = 0 then 0 else s.absDeltaValues.sum / s.absDeltaValues.length

/-- JS `get isReady()`: at least ⌊windowSize/2⌋ samples. -/
def isReady (s : RollingStats) : Bool :=
  s.volumes.length ≥ s.windowSize / 2

end RollingStats

/-! ## FootprintEngine (src/engines/FootprintEngine.js) -/

/-- One price cluster record of the footprint map. -/
structure Cluster where
  price : ℚ
  buyVolume : ℚ
  sellVolume : ℚ
  totalVolume : ℚ
  delta : ℚ
deriving Repr, DecidableEq

/-- One aggTrade message (fields the engine reads).  `isAggTrade` models the
`msg.e !== 'aggTrade'` event-type filter; `isBuyerMaker` is `msg.m`. -/
structure Trade where
  isAggTrade : Bool
  price : ℚ
  qty : ℚ
  isBuyerMaker : Bool
deriving Repr, DecidableEq

/-- FootprintEngine state.  The JS `Map` preserves insertion order, so the
clusters are a list in insertion order, keyed by (unique) snapped price. -/
structure FootprintState where
  clusters : List Cluster
  totalBuyVolume : ℚ
  totalSellVolume : ℚ
  tradeCount : ℕ
deriving Repr, DecidableEq

/-- The finalized footprint returned by `calculate()`. -/
structure Footprint where
  clusters : List Cluster
  poc : ℚ
  pocVolume : ℚ
  totalBuyVolume : ℚ
  totalSellVolume : ℚ
  totalVolume : ℚ
  delta : ℚ
  topClusterVolume : ℚ
  bottomClusterVolume : ℚ
  tradeCount : ℕ
deriving Repr, DecidableEq

namespace FootprintEngine

/-- JS `new FootprintEngine()`. -/
def init : FootprintState :=
  { clusters := [], totalBuyVolume := 0, totalSellVolume := 0, tradeCount := 0 }

/-- JS `_snapToCluster(price)`: `Math.round(price / size) * size`.  JS
`Math.round` rounds half toward +∞, which is exactly Mathlib's `round`
(⌊x + 1/2⌋). -/
def snapToCluster (cfg : Config) (price : ℚ) : ℚ :=
  (round (price / cfg.priceClusterSize) : ℤ) * cfg.priceClusterSize

/-- Update the one cluster whose price equals `level` (it is present). -/
def bumpCluster (qty : ℚ) (isBuyerMaker : Bool) (c : Cluster) : Cluster :=
  let c :=
    if isBuyerMaker then { c with sellVolume := c.sellVolume + qty }
    else { c with buyVolume := c.buyVolume + qty }
  { c with totalVolume := c.buyVolume + c.sellVolume, delta := c.buyVolume - c.sellVolume }

/-- JS `handleTrade(msg)`. -/
def handleTrade (cfg : Config) (st : FootprintState) (msg : Trade) : FootprintState :=
  if !msg.isAggTrade then st
  else
    let level := snapToCluster cfg msg.price
    -- `if (!this.clusters.has(level)) this.clusters.set(level, {price: level, 0,0,0,0})`
    let clusters :=
      if st.clusters.any (fun c => c.price = level) then st.clusters
      else st.clusters ++ [{ price := level, buyVolume := 0, sellVolume := 0,
                             totalVolume := 0, delta := 0 }]
    let clusters := clusters.map (fun c =>
      if c.price = level then bumpCluster msg.qty msg.isBuyerMaker c else c)
    if msg.isBuyerMaker then
      { st with clusters := clusters, totalSellVolume := st.totalSellVolume + msg.qty,
                tradeCount := st.tradeCount + 1 }
    else
      { st with clusters := clusters, totalBuyVolume := st.totalBuyVolume + msg.qty,
                tradeCount := st.tradeCount + 1 }

/-- Ascending-price comparator used by `sort((a, b) => a.price - b.price)`. -/
def priceLE (a b : Cluster) : Prop := a.price ≤ b.price

instance : DecidableRel priceLE := fun a b => inferInstanceAs (Decidable (a.price ≤ b.price))

instance : IsTotal Cluster priceLE := ⟨fun a b => le_total a.price b.price⟩

instance : IsTrans Cluster priceLE := ⟨fun _ _ _ h1 h2 => le_trans h1 h2⟩

/-- The sorted cluster array of `calculate()`. -/
def sortedClusters (st : FootprintState) : List Cluster :=
  st.clusters.insertionSort priceLE

/-- The `reduce` selecting the POC: keep the earlier cluster unless a later
one has strictly greater total volume. -/
def pocFold (acc : Cluster) (l : List Cluster) : Cluster :=
  l.foldl (fun m c => if c.totalVolume > m.totalVolume then c else m) acc

/-- JS `calculate()`: `null` when no clusters, else the full footprint. -/
def calculate (st : FootprintState) : Option Footprint :=
  match sortedClusters st with
  | [] => none
  | first :: rest =>
    let clusterArray := first :: rest
    let poc := pocFold first clusterArray
    let totalVolume := st.totalBuyVolume + st.totalSellVolume
    let delta := st.totalBuyVolume - st.totalSellVolume
    let topCluster := clusterArray.getLast (by simp)
    let bottomCluster := first
    some { clusters := clusterArray, poc := poc.price, pocVolume := poc.totalVolume,
           totalBuyVolume := st.totalBuyVolume, totalSellVolume := st.totalSellVolume,
           totalVolume := totalVolume, delta := delta,
           topClusterVolume := topCluster.totalVolume,
           bottomClusterVolume := bottomCluster.totalVolume,
           tradeCount := st.tradeCount }

end FootprintEngine

/-! ## SwingDetector (detectors/SwingDetector.js, pool-based variant) -/

/-- A confirmed swing pivot `{ price, time, idx }`. -/
structure Pivot where
  price : ℚ
  time : ℕ
  idx : ℕ
deriving Repr, DecidableEq

/-- SwingDetector state: the two liquidity pools plus the config copies made
by the constructor. -/
structure SwingState where
  lookback : ℕ
  maxPoolSize : ℕ
  swingHighPool : List Pivot
  swingLowPool : List Pivot
deriving Repr, DecidableEq

/-- Result of `getSweptHighs` `{ swept, count, lowestSweptLevel, highestLevel }`. -/
structure SweptHighsInfo where
  swept : List Pivot
  count : ℕ
  lowestSweptLevel : Option ℚ
  highestLevel : Option ℚ
deriving Repr, DecidableEq

/-- Result of `getSweptLows` `{ swept, count, highestSweptLevel, deepestLevel }`. -/
structure SweptLowsInfo where
  swept : List Pivot
  count : ℕ
  highestSweptLevel : Option ℚ
  deepestLevel : Option ℚ
deriving Repr, DecidableEq

namespace SwingDetector

/-- JS `new SwingDetector()`. -/
def init (cfg : Config) : SwingState :=
  { lookback := cfg.lookback, maxPoolSize := cfg.maxPoolSize,
    swingHighPool := [], swingLowPool := [] }

/-- Time-order comparator used by `pool.sort((a, b) => a.time - b.time)`. -/
def timeLE (a b : Pivot) : Prop := a.time ≤ b.time

instance : DecidableRel timeLE := fun a b => inferInstanceAs (Decidable (a.time ≤ b.time))

instance : IsTotal Pivot timeLE := ⟨fun a b => Nat.le_total a.time b.time⟩

instance : IsTrans Pivot timeLE := ⟨fun _ _ _ h1 h2 => Nat.le_trans h1 h2⟩

/-- JS `while (pool.length > maxPoolSize) pool.shift()`. -/
def shiftWhile (maxN : ℕ) (pool : List Pivot) : List Pivot :=
  if pool.length > maxN then
    match pool with
    | [] => []
    | _ :: t => shiftWhile maxN t
  else pool
termination_by pool.length
decreasing_by simp_all

/-- JS `_addToPool(pool, entry)`: push, sort by time, trim from the front. -/
def addToPool (maxN : ℕ) (pool : List Pivot) (entry : Pivot) : List Pivot :=
  shiftWhile maxN ((pool ++ [entry]).insertionSort timeLE)

/-- The swing-high neighborhood test of `update`: for every
`i ∈ [1, lookback]`, neighbors at `idx − i` and `idx + i` have
`high < candidate.high` (the JS loop sets `isSwingHigh = false` as soon as a
neighbor's high is ≥).  Indices are always in range at the call site
(`len ≥ 2·lookback + 1` and `idx = len − 1 − lookback ≥ lookback`); the
out-of-range fallback `false` is never exercised there. -/
def isSwingHighAt (candles : List Agg) (idx lookback : ℕ) (hi : ℚ) : Bool :=
  (List.range lookback).all (fun j =>
    (candles[idx - (j + 1)]?.elim false (fun a => a.high < hi)) &&
    (candles[idx + (j + 1)]?.elim false (fun b => b.high < hi)))

/-- The swing-low neighborhood test (mirror of `isSwingHighAt`). -/
def isSwingLowAt (candles : List Agg) (idx lookback : ℕ) (lo : ℚ) : Bool :=
  (List.range lookback).all (fun j =>
    (candles[idx - (j + 1)]?.elim false (fun a => lo < a.low)) &&
    (candles[idx + (j + 1)]?.elim false (fun b => lo < b.low)))

/-- JS `update(candles15m)`: confirm the bucket at `idx = len − 1 − lookback`
as a high and/or low pivot. -/
def update (sd : SwingState) (candles15m : List Agg) : SwingState :=
  let len := candles15m.length
  if len < sd.lookback * 2 + 1 then sd
  else
    let idx := len - 1 - sd.lookback
    if idx < sd.lookback then sd
    else
      match candles15m[idx]? with
      | none => sd
      | some candidate =>
        let alreadyHigh := sd.swingHighPool.any (fun s => s.time = candidate.openTime)
        let alreadyLow := sd.swingLowPool.any (fun s => s.time = candidate.openTime)
        let highPivot : Pivot := { price := candidate.high, time := candidate.openTime, idx := idx }
        let lowPivot : Pivot := { price := candidate.low, time := candidate.openTime, idx := idx }
        let sd :=
          if !alreadyHigh && isSwingHighAt candles15m idx sd.lookback candidate.high then
            { sd with swingHighPool := addToPool sd.maxPoolSize sd.swingHighPool highPivot }
          else sd
        if !alreadyLow && isSwingLowAt candles15m idx sd.lookback candidate.low then
          { sd with swingLowPool := addToPool sd.maxPoolSize sd.swingLowPool lowPivot }
        else sd

/-- JS `getSweptLows(candleLow)`: every low-pool pivot with `candleLow < price`. -/
def getSweptLows (sd : SwingState) (candleLow : ℚ) : SweptLowsInfo :=
  let swept := sd.swingLowPool.filter (fun s => candleLow < s.price)
  { swept := swept, count := swept.length,
    highestSweptLevel := (swept.map (fun s => s.price)).max?,
    deepestLevel := (swept.map (fun s => s.price)).min? }

/-- JS `getSweptHighs(candleHigh)`: every high-pool pivot with `candleHigh > price`. -/
def getSweptHighs (sd : SwingState) (candleHigh : ℚ) : SweptHighsInfo :=
  let swept := sd.swingHighPool.filter (fun s => candleHigh > s.price)
  { swept := swept, count := swept.length,
    lowestSweptLevel := (swept.map (fun s => s.price)).min?,
    highestLevel := (swept.map (fun s => s.price)).max? }

/-- The side argument of `clearSweptLevels`. -/
inductive PoolSide
  | high
  | low
deriving Repr, DecidableEq

/-- JS `clearSweptLevels(type, sweptLevels)`: delete from the named pool exactly
the members whose `time` occurs among the given pivots. -/
def clearSweptLevels (sd : SwingState) (side : PoolSide) (sweptLevels : List Pivot) :
    SwingState :=
  let sweptTimes := sweptLevels.map (fun s => s.time)
  match side with
  | PoolSide.high =>
    { sd with swingHighPool := sd.swingHighPool.filter (fun s => ¬ s.time ∈ sweptTimes) }
  | PoolSide.low =>
    { sd with swingLowPool := sd.swingLowPool.filter (fun s => ¬ s.time ∈ sweptTimes) }

end SwingDetector

/-! ## AbsorptionDetector (detectors/AbsorptionDetector.js, pool-based variant) -/

/-- The `PendingState` enum (`NONE` / `SHORT_PENDING` / `LONG_PENDING`). -/
inductive PendingState
  | NONE
  | SHORT
  | LONG
deriving Repr, DecidableEq

/-- The `this.pending` record; absent JS fields are `null`, modelled with
`Option`. -/
structure Pending where
  state : PendingState
  candle : Option Candle
  footprint : Option Footprint
  sweptLows : Option SweptLowsInfo
  sweptHighs : Option SweptHighsInfo
  sweepPrice : Option ℚ
  confirmCount : ℕ
deriving Repr, DecidableEq

/-- Signal direction of a produced result. -/
inductive SignalType
  | SHORT
  | LONG
deriving Repr, DecidableEq

/-- The `data` payload built by `_buildResult`.  The JS `toFixed(2)` string
formatting of `volumeMultiple` / `deltaMultiple` is modelled by the exact
quotient (division by a zero mean, `Infinity` in JS, is the ℚ junk value 0). -/
structure SignalData where
  sweptLevels : List ℚ
  sweptCount : ℕ
  swingLevel : Option ℚ
  sweepPrice : Option ℚ
  delta : ℚ
  totalVolume : ℚ
  avgVolume : ℚ
  avgAbsDelta : ℚ
  poc : ℚ
  candleClose : ℚ
  volumeMultiple : ℚ
  deltaMultiple : ℚ
  candle : Candle
  footprint : Footprint
  sweptLowsInfo : Option SweptLowsInfo
  sweptHighsInfo : Option SweptHighsInfo
deriving Repr, DecidableEq

/-- A non-null return value `{ type, data }` of the detector. -/
structure Signal where
  type : SignalType
  data : SignalData
deriving Repr, DecidableEq

/-- AbsorptionDetector state. -/
structure DetectorState where
  stats : RollingStats
  minLevelsSwept : ℕ
  pending : Pending
  maxConfirmCandles : ℕ
deriving Repr, DecidableEq

namespace AbsorptionDetector

/-- JS `_emptyPending()`. -/
def emptyPending : Pending :=
  { state := PendingState.NONE, candle := none, footprint := none,
    sweptLows := none, sweptHighs := none, sweepPrice := none, confirmCount := 0 }

/-- JS `new AbsorptionDetector()` (`maxConfirmCandles = 2` is hard-coded). -/
def init (cfg : Config) : DetectorState :=
  { stats := RollingStats.init cfg.rollingWindow, minLevelsSwept := cfg.minLevelsSwept,
    pending := emptyPending, maxConfirmCandles := 2 }

/-- JS `updateStats(totalVolume, delta)`. -/
def updateStats (st : DetectorState) (totalVolume delta : ℚ) : DetectorState :=
  { st with stats := st.stats.push totalVolume delta }

/-- Ascending comparator for `sweptLevels.sort((a, b) => a - b)`. -/
def ratLE (a b : ℚ) : Prop := a ≤ b

instance : DecidableRel ratLE := fun a b => inferInstanceAs (Decidable (a ≤ b))

instance : IsTotal ℚ ratLE := ⟨fun a b => le_total a b⟩

instance : IsTrans ℚ ratLE := ⟨fun _ _ _ h1 h2 => le_trans h1 h2⟩

/-- JS `_buildResult(type)`.  The JS code dereferences `pending.footprint`,
`pending.candle` and the side's swept info, which are always present on a
well-formed pending record; on a malformed record (where JS would throw) the
embedding returns `none`. -/
def buildResult (p : Pending) (stats : RollingStats) (type : SignalType) : Option Signal := do
  let fp ← p.footprint
  let c ← p.candle
  let (sweptPrices, count, swingLevel, lowsInfo, highsInfo) ←
    match type with
    | SignalType.SHORT => do
      let sh ← p.sweptHighs
      pure (sh.swept.map (fun s => s.price), sh.count, sh.highestLevel,
            p.sweptLows, some sh)
    | SignalType.LONG => do
      let sl ← p.sweptLows
      pure (sl.swept.map (fun s => s.price), sl.count, sl.highestSweptLevel,
            some sl, p.sweptHighs)
  pure
    { type := type,
      data :=
        { sweptLevels := sweptPrices.insertionSort ratLE,
          sweptCount := count,
          swingLevel := swingLevel,
          sweepPrice := p.sweepPrice,
          delta := fp.delta,
          totalVolume := fp.totalVolume,
          avgVolume := stats.avgVolume,
          avgAbsDelta := stats.avgAbsDelta,
          poc := fp.poc,
          candleClose := c.close,
          volumeMultiple := fp.totalVolume / stats.avgVolume,
          deltaMultiple := |fp.delta| / stats.avgAbsDelta,
          candle := c,
          footprint := fp,
          sweptLowsInfo := lowsInfo,
          sweptHighsInfo := highsInfo } }

/-- The pending record registered by the SHORT branch of `checkCandle`
(sweep price is the candle's high, confirm counter reset to 0). -/
def shortPendingOf (candle : Candle) (fp : Footprint) (sweptHighs : SweptHighsInfo) :
    Pending :=
  { state := PendingState.SHORT, candle := some candle, footprint := some fp,
    sweptHighs := some sweptHighs, sweptLows := none,
    sweepPrice := some candle.high, confirmCount := 0 }

/-- The pending record registered by the LONG branch of `checkCandle`
(sweep price is the candle's low, confirm counter reset to 0). -/
def longPendingOf (candle : Candle) (fp : Footprint) (sweptLows : SweptLowsInfo) :
    Pending :=
  { state := PendingState.LONG, candle := some candle, footprint := some fp,
    sweptLows := some sweptLows, sweptHighs := none,
    sweepPrice := some candle.low, confirmCount := 0 }

/-- JS `checkCandle(candle, footprint, sweptLows, sweptHighs)`.  The JS nested
`if (count ≥ min) { if (spikes...) { register; return } }` falls through to
the LONG block whenever the SHORT block does not register, which is exactly
the flattened conjunction used here.  Always returns `{ type: null }`. -/
def checkCandle (cfg : Config) (st : DetectorState) (candle : Candle)
    (footprint : Option Footprint) (sweptLows : SweptLowsInfo)
    (sweptHighs : SweptHighsInfo) : DetectorState × Option Signal :=
  match footprint with
  | none => (st, none)
  | some fp =>
    if !st.stats.isReady then (st, none)
    else
      let avgVol := st.stats.avgVolume
      let avgAbsDelta := st.stats.avgAbsDelta
      if sweptHighs.count ≥ st.minLevelsSwept ∧
         fp.delta > avgAbsDelta * cfg.deltaMultiplier ∧
         fp.totalVolume > avgVol * cfg.volumeMultiplier ∧
         candle.close < fp.poc then
        ({ st with pending := shortPendingOf candle fp sweptHighs }, none)
      else if sweptLows.count ≥ st.minLevelsSwept ∧
              fp.delta < -(avgAbsDelta * cfg.deltaMultiplier) ∧
              fp.totalVolume > avgVol * cfg.volumeMultiplier ∧
              candle.close > fp.poc then
        ({ st with pending := longPendingOf candle fp sweptLows }, none)
      else (st, none)

/-- JS `checkConfirmation(candle, footprint)`.  `candle.high > pending.sweepPrice`
against a `null` sweep price coerces `null` to 0 in JS, hence `getD 0`
(never exercised on well-formed pending records).  The trailing
`confirmCount >= maxConfirmCandles` cancellation is kept exactly as in the
source even though both the SHORT and the LONG block return on every path. -/
def checkConfirmation (st : DetectorState) (candle : Candle)
    (footprint : Option Footprint) : DetectorState × Option Signal :=
  if st.pending.state = PendingState.NONE then (st, none)
  else
    let st := { st with pending := { st.pending with confirmCount := st.pending.confirmCount + 1 } }
    if st.pending.state = PendingState.SHORT then
      if candle.high > st.pending.sweepPrice.getD 0 then
        ({ st with pending := emptyPending }, none)
      else
        let result := buildResult st.pending st.stats SignalType.SHORT
        ({ st with pending := emptyPending }, result)
    else if st.pending.state = PendingState.LONG then
      if candle.low < st.pending.sweepPrice.getD 0 then
        ({ st with pending := emptyPending }, none)
      else
        let result := buildResult st.pending st.stats SignalType.LONG
        ({ st with pending := emptyPending }, result)
    else
      if st.pending.confirmCount ≥ st.maxConfirmCandles then
        ({ st with pending := emptyPending }, none)
      else (st, none)

/-- JS `checkConfirmation` with the trailing timeout cancellation removed:
used to state that the timeout branch is dead code. -/
def checkConfirmationNoTimeout (st : DetectorState) (candle : Candle)
    (footprint : Option Footprint) : DetectorState × Option Signal :=
  if st.pending.state = PendingState.NONE then (st, none)
  else
    let st := { st with pending := { st.pending with confirmCount := st.pending.confirmCount + 1 } }
    if st.pending.state = PendingState.SHORT then
      if candle.high > st.pending.sweepPrice.getD 0 then
        ({ st with pending := emptyPending }, none)
      else
        let result := buildResult st.pending st.stats SignalType.SHORT
        ({ st with pending := emptyPending }, result)
    else if st.pending.state = PendingState.LONG then
      if candle.low < st.pending.sweepPrice.getD 0 then
        ({ st with pending := emptyPending }, none)
      else
        let result := buildResult st.pending st.stats SignalType.LONG
        ({ st with pending := emptyPending }, result)
    else (st, none)

/-- JS `hasPending()`. -/
def hasPending (st : DetectorState) : Bool :=
  st.pending.state ≠ PendingState.NONE

/-- Detector states reachable through the public API from a fresh instance. -/
inductive Reachable (cfg : Config) : DetectorState → Prop
  | init : Reachable cfg (init cfg)
  | updateStats (st : DetectorState) (v d : ℚ) :
      Reachable cfg st → Reachable cfg (updateStats st v d)
  | checkCandle (st : DetectorState) (c : Candle) (fp : Option Footprint)
      (sl : SweptLowsInfo) (sh : SweptHighsInfo) :
      Reachable cfg st → Reachable cfg (checkCandle cfg st c fp sl sh).1
  | checkConfirmation (st : DetectorState) (c : Candle) (fp : Option Footprint) :
      Reachable cfg st → Reachable cfg (checkConfirmation st c fp).1

end AbsorptionDetector

/-! ## CandleBuilder (engines/CandleBuilder.js) -/

namespace CandleBuilder

/-- The 15m window id: `Math.floor(openTime / (15 * 60 * 1000))`
(ℕ division is the floor for the nonnegative millisecond timestamps). -/
def windowId15 (openTime : ℕ) : ℕ :=
  openTime / (15 * 60 * 1000)

/-- JS `_create15mFrom1m(candle1m, windowId)`. -/
def create15mFrom1m (c : Candle) (windowId : ℕ) : Agg :=
  { windowId := windowId, openTime := c.openTime, openPrice := c.openPrice,
    high := c.high, low := c.low, close := c.close, volume := c.volume, count := 1 }

/-- JS `_update15m(candle15m, candle1m)`. -/
def update15m (a : Agg) (c : Candle) : Agg :=
  { a with high := max a.high c.high, low := min a.low c.low, close := c.close,
           volume := a.volume + c.volume, count := a.count + 1 }

/-- CandleBuilder state relevant to 15m aggregation: the open 15m candle,
the bounded buffer of closed 15m candles, and the log of `15mClose`
emissions. -/
structure CBState where
  current15m : Option Agg
  closed15m : List Agg
  max15mHistory : ℕ
  emitted15m : List Agg
deriving Repr, DecidableEq

/-- Fresh CandleBuilder (`max15mHistory = 60`). -/
def initCB : CBState :=
  { current15m := none, closed15m := [], max15mHistory := 60, emitted15m := [] }

/-- JS `_close15m(candle15m)`: push a copy onto the bounded buffer, trim the
oldest if over the bound, emit the `15mClose` event. -/
def close15m (st : CBState) (a : Agg) : CBState :=
  let closed := st.closed15m ++ [a]
  let closed := if closed.length > st.max15mHistory then closed.tail else closed
  { st with closed15m := closed, emitted15m := st.emitted15m ++ [a] }

/-- JS `_on1mClose(candle)` (the 15m aggregation part; the `1mClose` emission
carries the input candle unchanged). -/
def on1mClose (st : CBState) (c : Candle) : CBState :=
  let windowId := windowId15 c.openTime
  match st.current15m with
  | none => { st with current15m := some (create15mFrom1m c windowId) }
  | some cur =>
    if windowId = cur.windowId then
      { st with current15m := some (update15m cur c) }
    else
      let st := close15m st cur
      { st with current15m := some (create15mFrom1m c windowId) }

/-- One step of the run decomposition of a 1m-candle stream: completed
maximal runs of consecutive candles sharing a 15m window id, plus the
currently open run. -/
def runStep (rs : List (List Candle) × List Candle) (c : Candle) :
    List (List Candle) × List Candle :=
  match rs with
  | (done, []) => (done, [c])
  | (done, h :: t) =>
    if windowId15 c.openTime = windowId15 h.openTime then (done, (h :: t) ++ [c])
    else (done ++ [h :: t], [c])

/-- Split a 1m-candle stream into maximal consecutive runs sharing a 15m
window id (completed runs, open run). -/
def splitRuns (cs : List Candle) : List (List Candle) × List Candle :=
  cs.foldl runStep ([], [])

/-- The coarse bucket a run of member 1m candles folds to: the first member
opens it, each later member is merged by `update15m`. -/
def aggOfRun : List Candle → Option Agg
  | [] => none
  | h :: t => some (t.foldl update15m (create15mFrom1m h (windowId15 h.openTime)))

/-- Process a whole stream of closed 1m candles from a fresh builder. -/
def processAll (cs : List Candle) : CBState :=
  cs.foldl on1mClose initCB

/-- All members of a run share the 15m window id of its first member. -/
def sameWindow : List Candle → Prop
  | [] => True
  | h :: t => ∀ c ∈ t, windowId15 c.openTime = windowId15 h.openTime

/-- The simulation relation between a builder state and a run decomposition:
the emitted coarse buckets are the folds of the completed runs, and the open
coarse bucket is the fold of the open run. -/
def runsInvariant (st : CBState) (rs : List (List Candle) × List Candle) : Prop :=
  st.emitted15m = rs.1.filterMap aggOfRun ∧ st.current15m = aggOfRun rs.2

end CandleBuilder

/-! ## Bot glue for confirmed signals

The repository's pool-based orchestrator (the Bot generation that pairs with
the pool-based SwingDetector and AbsorptionDetector) is not present under
`src/`; only the earlier single-level Bot is.  Its pool-clearing behavior is
therefore modelled from the spec. -/

namespace Bot

open SwingDetector

/-- Modelled from the spec: the pool-based Bot's confirmed-signal handling is
missing from `src/` (only the single-level Bot variant is present).  Per the
spec, `removeSwept(side, pivots)` is "called only after a signal confirms",
deleting exactly the recorded swept pivots from the named pool: on a null
result nothing is touched; on a SHORT signal `clearSweptLevels('high', …)` is
applied to the recorded `sweptHighsInfo.swept`, on a LONG signal
`clearSweptLevels('low', …)` to the recorded `sweptLowsInfo.swept`. -/
def onConfirmationResult (sd : SwingState) (res : Option Signal) : SwingState :=
  match res with
  | none => sd
  | some sig =>
    match sig.type with
    | SignalType.SHORT =>
      match sig.data.sweptHighsInfo with
      | some info => clearSweptLevels sd PoolSide.high info.swept
      | none => sd
    | SignalType.LONG =>
      match sig.data.sweptLowsInfo with
      | some info => clearSweptLevels sd PoolSide.low info.swept
      | none => sd

/-- A 1m-close confirmation step of the Bot: run the detector's confirmation
check, then clear swept pivots exactly when a signal was delivered. -/
def confirmStep (det : DetectorState) (sd : SwingState) (candle : Candle)
    (footprint : Option Footprint) : DetectorState × SwingState × Option Signal :=
  let (det, res) := AbsorptionDetector.checkConfirmation det candle footprint
  (det, onConfirmationResult sd res, res)

end Bot

/-! ## Concrete fixtures used by witness theorems -/

/-- A two-cluster engine state whose clusters tie on total volume
(arrival order: price 101 first, then price 100). -/
def stW6 : FootprintState := ⟨[⟨101, 2, 1, 3, 1⟩, ⟨100, 1, 2, 3, -1⟩], 3, 3, 2⟩

/-- The footprint `calculate` produces for `stW6`. -/
def fpW6 : Footprint :=
  ⟨[⟨100, 1, 2, 3, -1⟩, ⟨101, 2, 1, 3, 1⟩], 100, 3, 3, 3, 6, 0, 3, 3, 2⟩

/-- A swing-detector state with two high pivots and one low pivot. -/
def sdW7 : SwingState := ⟨2, 8, [⟨10, 1, 0⟩, ⟨12, 2, 1⟩], [⟨5, 3, 2⟩]⟩

/-- Bookkeeping invariant of the footprint engine: per-cluster totals are the
sum of the two sides, cluster prices are pairwise distinct (the JS `Map` is
keyed by price), and the global totals are the sums over clusters. -/
def FootprintState.wellFormed (st : FootprintState) : Prop :=
  (∀ c ∈ st.clusters, c.totalVolume = c.buyVolume + c.sellVolume) ∧
  st.clusters.Pairwise (fun a b => a.price ≠ b.price) ∧
  (st.clusters.map (fun c => c.buyVolume)).sum = st.totalBuyVolume ∧
  (st.clusters.map (fun c => c.sellVolume)).sum = st.totalSellVolume

instance : Std.Antisymm (fun a b : ℚ => a ≤ b) :=
  ⟨@fun _ _ h1 h2 => le_antisymm h1 h2⟩

/-- Config with unit cluster size used by the C8 witness. -/
def cfgW8 : Config := ⟨2, 3/2, 20, 1, 2, 8, 2⟩

/-- Two aggTrades: a buy of 2 at 100 and a sell of 3 at 101. -/
def tradesW8 : List Trade := [⟨true, 100, 2, false⟩, ⟨true, 101, 3, true⟩]

/-- The footprint `calculate` produces after ingesting `tradesW8`. -/
def fpW8 : Footprint :=
  ⟨[⟨100, 2, 0, 2, 2⟩, ⟨101, 0, 3, 3, -3⟩], 101, 3, 2, 3, 5, -1, 3, 2, 2⟩

/-- Detector-witness config: rolling window 2 (ready after one sample),
minLevelsSwept 1, deltaMultiplier 2, volumeMultiplier 3/2. -/
def cfgW : Config := ⟨2, 3/2, 2, 1/2, 2, 8, 1⟩

/-- Rolling stats holding one sample: volume 10, |delta| 1. -/
def statsW : RollingStats := ⟨2, [10], [1], [1]⟩

/-- An idle detector carrying `statsW` (as built by `init cfgW` then one
`updateStats 10 1`). -/
def detW : DetectorState := ⟨statsW, 1, AbsorptionDetector.emptyPending, 2⟩

/-- A 1m candle sweeping up to 105 and closing at 100. -/
def candleW : Candle := ⟨0, 60000, 100, 105, 99, 100, 50⟩

/-- A footprint with delta 3, total volume 22 and POC 101. -/
def fpWd : Footprint := ⟨[], 101, 0, 25/2, 19/2, 22, 3, 0, 0, 5⟩

/-- One swept high pivot at price 104. -/
def shWd : SweptHighsInfo := ⟨[⟨104, 1, 0⟩], 1, some 104, some 104⟩

/-- No swept lows. -/
def slWd : SweptLowsInfo := ⟨[], 0, none, none⟩

/-- The detector after `checkCandle` registered the SHORT candidate built
from `candleW`, `fpWd` and `shWd`. -/
def detWpending : DetectorState :=
  ⟨statsW, 1, AbsorptionDetector.shortPendingOf candleW fpWd shWd, 2⟩

/-- A follow-up candle whose high 104 does not exceed the sweep price 105. -/
def candleW2 : Candle := ⟨60000, 120000, 100, 104, 98, 99, 40⟩

/-- A follow-up candle whose high 106 exceeds the sweep price 105. -/
def candleW3 : Candle := ⟨60000, 120000, 100, 106, 98, 99, 40⟩

/-- A footprint with delta −3, total volume 22 and POC 99 (triggers the
LONG candidacy conditions against `statsW` when the close is 100). -/
def fpWlong : Footprint := ⟨[], 99, 0, 19/2, 25/2, 22, -3, 0, 0, 5⟩

/-- One swept low pivot at price 96. -/
def slWd2 : SweptLowsInfo := ⟨[⟨96, 9, 0⟩], 1, some 96, some 96⟩

/-- Default coarse candle used only as the `getD` fallback in the dominance
predicates (never reached at in-range indices). -/
def dfltAgg : Agg := ⟨0, 0, 0, 0, 0, 0, 0, 0⟩

/-- Strict high dominance over the symmetric `L`-neighborhood of `idx`:
every neighbor at distance 1..L on either side has a strictly smaller high. -/
def domHigh (candles : List Agg) (idx L : ℕ) (h : ℚ) : Prop :=
  ∀ i ∈ Finset.Icc 1 L, (candles.getD (idx - i) dfltAgg).high < h ∧
    (candles.getD (idx + i) dfltAgg).high < h

/-- Strict low dominance: every neighbor at distance 1..L on either side has
a strictly greater low. -/
def domLow (candles : List Agg) (idx L : ℕ) (lo : ℚ) : Prop :=
  ∀ i ∈ Finset.Icc 1 L, lo < (candles.getD (idx - i) dfltAgg).low ∧
    lo < (candles.getD (idx + i) dfltAgg).low

/-- An empty swing detector with lookback 2 and pool bound 8. -/
def sdW4 : SwingState := ⟨2, 8, [], []⟩

/-- Five coarse candles; the one at index 2 has the strictly largest high
(5) in the window but its low (1) is not a strict low. -/
def candlesW4 : List Agg :=
  [⟨0, 0, 0, 1, 0, 0, 0, 1⟩, ⟨0, 1, 0, 2, 0, 0, 0, 1⟩, ⟨0, 2, 0, 5, 1, 0, 0, 1⟩,
   ⟨0, 3, 0, 3, 0, 0, 0, 1⟩, ⟨0, 4, 0, 4, 0, 0, 0, 1⟩]

/-- Three 1m candles: the first two share 15m window 0, the third opens
window 1 (open time 900000 ms). -/
def csW9 : List Candle :=
  [⟨0, 59999, 1, 5, 1, 3, 10⟩, ⟨60000, 119999, 3, 7, 2, 4, 20⟩,
   ⟨900000, 959999, 4, 6, 3, 5, 30⟩]

/-! ## Helper lemmas: the POC fold -/

namespace FootprintEngine

lemma pocFold_cons (acc x : Cluster) (xs : List Cluster) :
    pocFold acc (x :: xs) = pocFold (if x.totalVolume > acc.totalVolume then x else acc) xs :=
  rfl

lemma pocFold_mem : ∀ (l : List Cluster) (acc : Cluster), pocFold acc l = acc ∨ pocFold acc l ∈ l
  | [], _ => Or.inl rfl
  | x :: xs, acc => by
    rw [pocFold_cons]
    rcases pocFold_mem xs (if x.totalVolume > acc.totalVolume then x else acc) with h | h
    · rw [h]
      by_cases hx : x.totalVolume > acc.totalVolume
      · simp [hx]
      · simp [hx]
    · exact Or.inr (List.mem_cons_of_mem _ h)

lemma le_pocFold : ∀ (l : List Cluster) (acc : Cluster),
    acc.totalVolume ≤ (pocFold acc l).totalVolume
  | [], _ => le_refl _
  | x :: xs, acc => by
    rw [pocFold_cons]
    by_cases hx : x.totalVolume > acc.totalVolume
    · rw [if_pos hx]
      exact le_trans (le_of_lt hx) (le_pocFold xs x)
    · rw [if_neg hx]
      exact le_pocFold xs acc

lemma mem_le_pocFold : ∀ (l : List Cluster) (acc : Cluster),
    ∀ c ∈ l, c.totalVolume ≤ (pocFold acc l).totalVolume
  | x :: xs, acc, c, hc => by
    rw [pocFold_cons]
    rcases List.mem_cons.mp hc with rfl | hc2
    · by_cases hx : c.totalVolume > acc.totalVolume
      · rw [if_pos hx]
        exact le_pocFold xs c
      · rw [if_neg hx]
        exact le_trans (not_lt.mp hx) (le_pocFold xs acc)
    · exact mem_le_pocFold xs _ c hc2

lemma pocFold_tie : ∀ (l : List Cluster) (acc : Cluster), List.Sorted priceLE (acc :: l) →
    ∀ c ∈ acc :: l, c.totalVolume = (pocFold acc l).totalVolume → (pocFold acc l).price ≤ c.price
  | [], acc, _, c, hc, _ => by
    rcases List.mem_cons.mp hc with rfl | hc2
    · exact le_refl _
    · cases hc2
  | x :: xs, acc, hs, c, hc, hv => by
    rw [pocFold_cons] at hv ⊢
    have hsx : List.Sorted priceLE (x :: xs) := hs.tail
    have hsons := List.sorted_cons.mp hs
    by_cases hx : x.totalVolume > acc.totalVolume
    · rw [if_pos hx] at hv ⊢
      rcases List.mem_cons.mp hc with rfl | hc2
      · exfalso
        have h1 : x.totalVolume ≤ (pocFold x xs).totalVolume := le_pocFold xs x
        rw [← hv] at h1
        exact absurd (lt_of_lt_of_le hx h1) (lt_irrefl _)
      · exact pocFold_tie xs x hsx c hc2 hv
    · rw [if_neg hx] at hv ⊢
      have hsacc : List.Sorted priceLE (acc :: xs) := by
        rw [List.sorted_cons]
        refine ⟨fun b hb => hsons.1 b (List.mem_cons_of_mem _ hb), hsx.tail⟩
      rcases List.mem_cons.mp hc with rfl | hc2
      · exact pocFold_tie xs c hsacc c (List.mem_cons_self _ _) hv
      · rcases List.mem_cons.mp hc2 with rfl | hc3
        · have h1 : acc.totalVolume ≤ (pocFold acc xs).totalVolume := le_pocFold xs acc
          have h2 : c.totalVolume ≤ acc.totalVolume := not_lt.mp hx
          have haccv : acc.totalVolume = (pocFold acc xs).totalVolume :=
            le_antisymm h1 (by rw [← hv]; exact h2)
          have hp1 : (pocFold acc xs).price ≤ acc.price :=
            pocFold_tie xs acc hsacc acc (List.mem_cons_self _ _) haccv
          have hp2 : priceLE acc c := hsons.1 c (List.mem_cons_self _ _)
          exact le_trans hp1 hp2
        · exact pocFold_tie xs acc hsacc c (List.mem_cons_of_mem _ hc3) hv

end FootprintEngine

/-! ## Claim C6 -/

/-- C6: for every non-empty set of accumulated clusters, `calculate` selects
as point-of-control a cluster of the ascending-price-sorted cluster list
whose total volume is maximal, and any cluster tying that total volume has a
price ≥ the selected one — i.e. on ties the lower-priced cluster (first in
ascending-price order) is selected. -/
theorem calculate_poc_is_max_volume_lowest_price (st : FootprintState) (fp : Footprint)
    (h : FootprintEngine.calculate st = some fp) :
    ∃ pc ∈ fp.clusters,
      fp.poc = pc.price ∧ fp.pocVolume = pc.totalVolume ∧
      fp.clusters = FootprintEngine.sortedClusters st ∧
      (∀ c ∈ fp.clusters, c.totalVolume ≤ pc.totalVolume) ∧
      (∀ c ∈ fp.clusters, c.totalVolume = pc.totalVolume → pc.price ≤ c.price) := by
  unfold FootprintEngine.calculate at h
  split at h
  · exact absurd h (by simp)
  · rename_i first rest heq
    have hfp : fp = _ := (Option.some.inj h).symm
    subst hfp
    have hs : List.Sorted FootprintEngine.priceLE (first :: rest) := by
      rw [← heq]
      exact List.sorted_insertionSort _ _
    have hss : List.Sorted FootprintEngine.priceLE (first :: first :: rest) := by
      rw [List.sorted_cons]
      refine ⟨?_, hs⟩
      intro b hb
      rcases List.mem_cons.mp hb with rfl | hb2
      · exact le_refl b.price
      · exact (List.sorted_cons.mp hs).1 b hb2
    refine ⟨FootprintEngine.pocFold first (first :: rest), ?_, rfl, rfl, heq.symm, ?_, ?_⟩
    · rcases FootprintEngine.pocFold_mem (first :: rest) first with h1 | h1
      · rw [h1]; exact List.mem_cons_self _ _
      · exact h1
    · exact FootprintEngine.mem_le_pocFold (first :: rest) first
    · intro c hc hv
      exact FootprintEngine.pocFold_tie (first :: rest) first hss c
        (List.mem_cons_of_mem _ hc) hv

/-- Witness for C6 at `stW6`, a two-cluster state with a volume tie: both
clusters have total volume 3 and the lower price (100) is selected as POC. -/
theorem calculate_poc_is_max_volume_lowest_price_witness :
    ∃ pc ∈ fpW6.clusters, fpW6.poc = pc.price ∧ (100 : ℚ) ≤ pc.price := by
  have hcalc : FootprintEngine.calculate stW6 = some fpW6 := by
    have h1 : FootprintEngine.sortedClusters stW6 =
        [⟨100, 1, 2, 3, -1⟩, ⟨101, 2, 1, 3, 1⟩] := by
      simp [stW6, FootprintEngine.sortedClusters, List.insertionSort, List.orderedInsert,
        FootprintEngine.priceLE]
      norm_num
    unfold FootprintEngine.calculate
    rw [h1]
    simp [fpW6, stW6, FootprintEngine.pocFold]
    norm_num
  obtain ⟨pc, hmem, hpoc, _hvol, _hcl, _hmax, _htie⟩ :=
    calculate_poc_is_max_volume_lowest_price stW6 fpW6 hcalc
  refine ⟨pc, hmem, hpoc, ?_⟩
  have hm2 := hmem
  rw [show fpW6.clusters = [⟨100, 1, 2, 3, -1⟩, ⟨101, 2, 1, 3, 1⟩] from rfl] at hm2
  rcases List.mem_cons.mp hm2 with rfl | h2
  · norm_num
  · rcases List.mem_cons.mp h2 with rfl | h3
    · norm_num
    · cases h3

/-! ## Claim C7 -/

lemma rat_min?_eq_some_iff {xs : List ℚ} {a : ℚ} :
    xs.min? = some a ↔ a ∈ xs ∧ ∀ b ∈ xs, a ≤ b :=
  List.min?_eq_some_iff (fun c => le_refl c) (fun c d => min_choice c d)
    (fun _ _ _ => le_min_iff)

lemma rat_max?_eq_some_iff {xs : List ℚ} {a : ℚ} :
    xs.max? = some a ↔ a ∈ xs ∧ ∀ b ∈ xs, b ≤ a :=
  List.max?_eq_some_iff (fun c => le_refl c) (fun c d => max_choice c d)
    (fun _ _ _ => max_le_iff)

/-- C7: `getSweptHighs x` returns exactly the high-pool pivots with price
strictly below `x`, together with their count and the min/max price among
the swept members; the swept set is monotone in `x`.  `getSweptLows` is the
mirror (price strictly above the query, antitone threshold). -/
theorem getSwept_exact_and_monotone (sd : SwingState) (x y : ℚ) :
    (∀ s, s ∈ (SwingDetector.getSweptHighs sd x).swept ↔
        s ∈ sd.swingHighPool ∧ s.price < x) ∧
    (SwingDetector.getSweptHighs sd x).count =
      (SwingDetector.getSweptHighs sd x).swept.length ∧
    (∀ m, (SwingDetector.getSweptHighs sd x).lowestSweptLevel = some m ↔
        (m ∈ (SwingDetector.getSweptHighs sd x).swept.map (fun s => s.price) ∧
         ∀ p ∈ (SwingDetector.getSweptHighs sd x).swept.map (fun s => s.price), m ≤ p)) ∧
    (∀ m, (SwingDetector.getSweptHighs sd x).highestLevel = some m ↔
        (m ∈ (SwingDetector.getSweptHighs sd x).swept.map (fun s => s.price) ∧
         ∀ p ∈ (SwingDetector.getSweptHighs sd x).swept.map (fun s => s.price), p ≤ m)) ∧
    (x ≤ y → ∀ s ∈ (SwingDetector.getSweptHighs sd x).swept,
        s ∈ (SwingDetector.getSweptHighs sd y).swept) ∧
    (∀ s, s ∈ (SwingDetector.getSweptLows sd x).swept ↔
        s ∈ sd.swingLowPool ∧ x < s.price) ∧
    (∀ m, (SwingDetector.getSweptLows sd x).highestSweptLevel = some m ↔
        (m ∈ (SwingDetector.getSweptLows sd x).swept.map (fun s => s.price) ∧
         ∀ p ∈ (SwingDetector.getSweptLows sd x).swept.map (fun s => s.price), p ≤ m)) ∧
    (∀ m, (SwingDetector.getSweptLows sd x).deepestLevel = some m ↔
        (m ∈ (SwingDetector.getSweptLows sd x).swept.map (fun s => s.price) ∧
         ∀ p ∈ (SwingDetector.getSweptLows sd x).swept.map (fun s => s.price), m ≤ p)) ∧
    (y ≤ x → ∀ s ∈ (SwingDetector.getSweptLows sd x).swept,
        s ∈ (SwingDetector.getSweptLows sd y).swept) := by
  have hmemH : ∀ z s, s ∈ (SwingDetector.getSweptHighs sd z).swept ↔
      s ∈ sd.swingHighPool ∧ s.price < z := by
    intro z s
    simp [SwingDetector.getSweptHighs, List.mem_filter]
  have hmemL : ∀ z s, s ∈ (SwingDetector.getSweptLows sd z).swept ↔
      s ∈ sd.swingLowPool ∧ z < s.price := by
    intro z s
    simp [SwingDetector.getSweptLows, List.mem_filter]
  refine ⟨hmemH x, rfl, ?_, ?_, ?_, hmemL x, ?_, ?_, ?_⟩
  · intro m
    exact rat_min?_eq_some_iff
  · intro m
    exact rat_max?_eq_some_iff
  · intro hxy s hs
    rw [hmemH x] at hs
    rw [hmemH y]
    exact ⟨hs.1, lt_of_lt_of_le hs.2 hxy⟩
  · intro m
    exact rat_max?_eq_some_iff
  · intro m
    exact rat_min?_eq_some_iff
  · intro hyx s hs
    rw [hmemL x] at hs
    rw [hmemL y]
    exact ⟨hs.1, lt_of_le_of_lt hyx hs.2⟩

/-- Witness for C7 at `sdW7` with queries x = 11, y = 13: the pivot at price
10 is swept by 11 and stays swept under the larger query 13; the pivot at
price 12 is not swept by 11; the low pivot at price 5 is swept by 4. -/
theorem getSwept_exact_and_monotone_witness :
    (⟨10, 1, 0⟩ : Pivot) ∈ (SwingDetector.getSweptHighs sdW7 11).swept ∧
    (⟨10, 1, 0⟩ : Pivot) ∈ (SwingDetector.getSweptHighs sdW7 13).swept ∧
    ¬ (⟨12, 2, 1⟩ : Pivot) ∈ (SwingDetector.getSweptHighs sdW7 11).swept ∧
    (⟨5, 3, 2⟩ : Pivot) ∈ (SwingDetector.getSweptLows sdW7 4).swept := by
  obtain ⟨hH, _, _, _, hmono, hL, _, _, _⟩ := getSwept_exact_and_monotone sdW7 11 13
  have h10 : (⟨10, 1, 0⟩ : Pivot) ∈ (SwingDetector.getSweptHighs sdW7 11).swept := by
    rw [hH]
    refine ⟨by simp [sdW7], by norm_num⟩
  refine ⟨h10, hmono (by norm_num) _ h10, ?_, ?_⟩
  · intro h12
    rw [hH] at h12
    exact absurd h12.2 (by norm_num)
  · obtain ⟨_, _, _, _, _, hL4, _, _, _⟩ := getSwept_exact_and_monotone sdW7 4 4
    rw [hL4]
    refine ⟨by simp [sdW7], by norm_num⟩

/-! ## Claim C8 -/

namespace FootprintEngine

lemma sum_map_update_eq (l : List Cluster) (p : Cluster → Bool) (f : Cluster → Cluster)
    (g : Cluster → ℚ) (δ : ℚ) (hf : ∀ c, p c = true → g (f c) = g c + δ) :
    ((l.map (fun c => if p c then f c else c)).map g).sum =
      (l.map g).sum + δ * l.countP p := by
  induction l with
  | nil => simp
  | cons c cs ih =>
    by_cases hp : p c
    · simp only [List.map_cons, List.sum_cons, if_pos hp, hf c hp, ih,
        List.countP_cons, hp, if_pos]
      push_cast
      ring
    · simp only [List.map_cons, List.sum_cons, if_neg hp, ih, List.countP_cons]
      push_cast [hp]
      ring

lemma countP_price_eq_one (l : List Cluster) (level : ℚ)
    (hpair : l.Pairwise (fun a b => a.price ≠ b.price))
    (hmem : ∃ c ∈ l, c.price = level) :
    l.countP (fun c => c.price = level) = 1 := by
  induction l with
  | nil => simp at hmem
  | cons c cs ih =>
    rcases List.pairwise_cons.mp hpair with ⟨hc, hcs⟩
    by_cases hp : c.price = level
    · have hz : cs.countP (fun d => d.price = level) = 0 := by
        rw [List.countP_eq_zero]
        intro d hd
        simp only [decide_eq_true_eq]
        intro hdl
        exact (hc d hd) (by rw [hp, hdl])
      simp [List.countP_cons, hp, hz]
    · rcases hmem with ⟨d, hd, hdl⟩
      rcases List.mem_cons.mp hd with rfl | hd2
      · exact absurd hdl hp
      · have := ih hcs ⟨d, hd2, hdl⟩
        simp [List.countP_cons, hp, this]

lemma handleTrade_wellFormed (cfg : Config) (st : FootprintState) (msg : Trade)
    (h : st.wellFormed) : (handleTrade cfg st msg).wellFormed := by
  rcases h with ⟨hwf, hpair, hbuy, hsell⟩
  by_cases hagg : msg.isAggTrade
  · have hAgg : (!msg.isAggTrade) = false := by simp [hagg]
    set level := snapToCluster cfg msg.price with hlevel
    set zero : Cluster :=
      { price := level, buyVolume := 0, sellVolume := 0, totalVolume := 0, delta := 0 }
      with hzero
    set base := if st.clusters.any (fun c => c.price = level) then st.clusters
      else st.clusters ++ [zero] with hbase
    have hbase_wf : ∀ c ∈ base, c.totalVolume = c.buyVolume + c.sellVolume := by
      intro c hc
      rw [hbase] at hc
      split at hc
      · exact hwf c hc
      · rcases List.mem_append.mp hc with h1 | h1
        · exact hwf c h1
        · rcases List.mem_singleton.mp h1 with rfl
          simp [hzero]
    have hbase_pair : base.Pairwise (fun a b => a.price ≠ b.price) := by
      rw [hbase]
      split
      · exact hpair
      · rename_i hany
        rw [List.pairwise_append]
        refine ⟨hpair, List.pairwise_singleton _ _, ?_⟩
        intro a ha b hb
        rcases List.mem_singleton.mp hb with rfl
        simp only [hzero]
        intro heq
        rw [List.any_eq_true] at hany
        exact hany ⟨a, ha, by simp [heq]⟩
    have hbase_buy : (base.map (fun c => c.buyVolume)).sum = st.totalBuyVolume := by
      rw [hbase]
      split
      · exact hbuy
      · simp [hzero, hbuy]
    have hbase_sell : (base.map (fun c => c.sellVolume)).sum = st.totalSellVolume := by
      rw [hbase]
      split
      · exact hsell
      · simp [hzero, hsell]
    have hbase_mem : ∃ c ∈ base, c.price = level := by
      rw [hbase]
      split
      · rename_i hany
        rw [List.any_eq_true] at hany
        rcases hany with ⟨c, hc, hcl⟩
        exact ⟨c, hc, by simpa using hcl⟩
      · exact ⟨zero, List.mem_append_right _ (List.mem_singleton_self _), rfl⟩
    have hcount : base.countP (fun c => decide (c.price = level)) = 1 :=
      countP_price_eq_one base level hbase_pair hbase_mem
    have hres : handleTrade cfg st msg =
        (if msg.isBuyerMaker then
          { st with
            clusters := base.map (fun c =>
              if c.price = level then bumpCluster msg.qty msg.isBuyerMaker c else c),
            totalSellVolume := st.totalSellVolume + msg.qty,
            tradeCount := st.tradeCount + 1 }
        else
          { st with
            clusters := base.map (fun c =>
              if c.price = level then bumpCluster msg.qty msg.isBuyerMaker c else c),
            totalBuyVolume := st.totalBuyVolume + msg.qty,
            tradeCount := st.tradeCount + 1 }) := by
      rw [handleTrade, hAgg]
      simp only [Bool.false_eq_true, if_false, ← hlevel, ← hzero, ← hbase]
    have hclwf : ∀ c ∈ base.map (fun c =>
        if c.price = level then bumpCluster msg.qty msg.isBuyerMaker c else c),
        c.totalVolume = c.buyVolume + c.sellVolume := by
      intro c hc
      rcases List.mem_map.mp hc with ⟨d, hd, rfl⟩
      by_cases hp : d.price = level
      · rw [if_pos hp]
        rfl
      · rw [if_neg hp]
        exact hbase_wf d hd
    have hbump_price : ∀ c, (bumpCluster msg.qty msg.isBuyerMaker c).price = c.price := by
      intro c
      cases msg.isBuyerMaker <;> rfl
    have hclpair : (base.map (fun c =>
        if c.price = level then bumpCluster msg.qty msg.isBuyerMaker c else c)).Pairwise
        (fun a b => a.price ≠ b.price) := by
      rw [List.pairwise_map]
      refine hbase_pair.imp ?_
      intro a b hab
      by_cases ha : a.price = level
      · by_cases hb : b.price = level
        · exact absurd (ha.trans hb.symm) hab
        · rw [if_pos ha, if_neg hb, hbump_price a]
          exact hab
      · by_cases hb : b.price = level
        · rw [if_neg ha, if_pos hb, hbump_price b]
          exact hab
        · rw [if_neg ha, if_neg hb]
          exact hab
    have hbump_buy : ∀ c, (decide (c.price = level)) = true →
        (bumpCluster msg.qty msg.isBuyerMaker c).buyVolume =
          c.buyVolume + (if msg.isBuyerMaker then 0 else msg.qty) := by
      intro c _
      cases msg.isBuyerMaker <;> simp [bumpCluster]
    have hbump_sell : ∀ c, (decide (c.price = level)) = true →
        (bumpCluster msg.qty msg.isBuyerMaker c).sellVolume =
          c.sellVolume + (if msg.isBuyerMaker then msg.qty else 0) := by
      intro c _
      cases msg.isBuyerMaker <;> simp [bumpCluster]
    have hsum_buy := sum_map_update_eq base (fun c => decide (c.price = level))
      (bumpCluster msg.qty msg.isBuyerMaker) (fun c => c.buyVolume)
      (if msg.isBuyerMaker then 0 else msg.qty) hbump_buy
    have hsum_sell := sum_map_update_eq base (fun c => decide (c.price = level))
      (bumpCluster msg.qty msg.isBuyerMaker) (fun c => c.sellVolume)
      (if msg.isBuyerMaker then msg.qty else 0) hbump_sell
    rw [hcount] at hsum_buy hsum_sell
    rw [hres]
    cases hbm : msg.isBuyerMaker
    · rw [hbm] at hclwf hclpair hsum_buy hsum_sell
      rw [if_neg (by simp)]
      refine ⟨hclwf, hclpair, ?_, ?_⟩
      · simpa [hbase_buy] using hsum_buy
      · simpa [hbase_sell] using hsum_sell
    · rw [hbm] at hclwf hclpair hsum_buy hsum_sell
      rw [if_pos rfl]
      refine ⟨hclwf, hclpair, ?_, ?_⟩
      · simpa [hbase_buy] using hsum_buy
      · simpa [hbase_sell] using hsum_sell
  · have : handleTrade cfg st msg = st := by
      rw [handleTrade]
      simp [hagg]
    rw [this]
    exact ⟨hwf, hpair, hbuy, hsell⟩

lemma init_wellFormed : (init : FootprintState).wellFormed := by
  refine ⟨?_, ?_, ?_, ?_⟩ <;> simp [init, FootprintState.wellFormed]

lemma foldl_handleTrade_wellFormed (cfg : Config) (trades : List Trade) :
    (trades.foldl (handleTrade cfg) init).wellFormed := by
  suffices h : ∀ (l : List Trade) (st : FootprintState), st.wellFormed →
      (l.foldl (handleTrade cfg) st).wellFormed by
    exact h trades init init_wellFormed
  intro l
  induction l with
  | nil => exact fun st h => h
  | cons t ts ih => exact fun st h => ih _ (handleTrade_wellFormed cfg st t h)

lemma sum_total_eq_sum_buy_add_sell (l : List Cluster)
    (h : ∀ c ∈ l, c.totalVolume = c.buyVolume + c.sellVolume) :
    (l.map (fun c => c.totalVolume)).sum =
      (l.map (fun c => c.buyVolume)).sum + (l.map (fun c => c.sellVolume)).sum := by
  induction l with
  | nil => simp
  | cons c cs ih =>
    simp only [List.map_cons, List.sum_cons]
    rw [h c (List.mem_cons_self _ _), ih (fun d hd => h d (List.mem_cons_of_mem _ hd))]
    ring

end FootprintEngine

/-- C8: after ingesting any sequence of trades from a fresh engine, every
non-null `calculate` result satisfies totalVolume = totalBuyVolume +
totalSellVolume, and the cluster total volumes sum to totalVolume. -/
theorem calculate_volume_conservation (cfg : Config) (trades : List Trade) (fp : Footprint)
    (h : FootprintEngine.calculate (trades.foldl (FootprintEngine.handleTrade cfg)
        FootprintEngine.init) = some fp) :
    fp.totalVolume = fp.totalBuyVolume + fp.totalSellVolume ∧
    (fp.clusters.map (fun c => c.totalVolume)).sum = fp.totalVolume := by
  set st := trades.foldl (FootprintEngine.handleTrade cfg) FootprintEngine.init with hst
  obtain ⟨hwf, hpair, hbuy, hsell⟩ := FootprintEngine.foldl_handleTrade_wellFormed cfg trades
  rw [← hst] at hwf hpair hbuy hsell
  unfold FootprintEngine.calculate at h
  split at h
  · exact absurd h (by simp)
  · rename_i first rest heq
    have hfp : fp = _ := (Option.some.inj h).symm
    subst hfp
    refine ⟨rfl, ?_⟩
    have hperm : (FootprintEngine.sortedClusters st).Perm st.clusters :=
      List.perm_insertionSort _ _
    have hperm2 : (first :: rest).Perm st.clusters := heq ▸ hperm
    have hwf2 : ∀ c ∈ (first :: rest), c.totalVolume = c.buyVolume + c.sellVolume :=
      fun c hc => hwf c (hperm2.mem_iff.mp hc)
    have hsum := FootprintEngine.sum_total_eq_sum_buy_add_sell (first :: rest) hwf2
    have hb : ((first :: rest).map (fun c => c.buyVolume)).sum = st.totalBuyVolume := by
      rw [(hperm2.map (fun c => c.buyVolume)).sum_eq, hbuy]
    have hs : ((first :: rest).map (fun c => c.sellVolume)).sum = st.totalSellVolume := by
      rw [(hperm2.map (fun c => c.sellVolume)).sum_eq, hsell]
    simp only [hsum, hb, hs]

/-- Witness for C8: after the two trades of `tradesW8` the footprint is
`fpW8`, whose total volume 5 = 2 + 3 equals the sum of cluster volumes. -/
theorem calculate_volume_conservation_witness :
        fpW8.totalVolume = fpW8.totalBuyVolume + fpW8.totalSellVolume ∧
    (fpW8.clusters.map (fun c => c.totalVolume)).sum = fpW8.totalVolume := by
  have hsnap100 : FootprintEngine.snapToCluster cfgW8 100 = 100 := by
    simp [FootprintEngine.snapToCluster, cfgW8]
  have hsnap101 : FootprintEngine.snapToCluster cfgW8 101 = 101 := by
    simp [FootprintEngine.snapToCluster, cfgW8]
  have hst : tradesW8.foldl (FootprintEngine.handleTrade cfgW8) FootprintEngine.init =
      ⟨[⟨100, 2, 0, 2, 2⟩, ⟨101, 0, 3, 3, -3⟩], 2, 3, 2⟩ := by
    simp only [tradesW8, List.foldl]
    rw [FootprintEngine.handleTrade, FootprintEngine.handleTrade]
    simp [hsnap100, hsnap101, FootprintEngine.init, FootprintEngine.bumpCluster]
  have hsorted : FootprintEngine.sortedClusters
      (⟨[⟨100, 2, 0, 2, 2⟩, ⟨101, 0, 3, 3, -3⟩], 2, 3, 2⟩ : FootprintState) =
      [⟨100, 2, 0, 2, 2⟩, ⟨101, 0, 3, 3, -3⟩] := by
    simp [FootprintEngine.sortedClusters, List.insertionSort, List.orderedInsert,
      FootprintEngine.priceLE]
    norm_num
  have hcalc : FootprintEngine.calculate (tradesW8.foldl
      (FootprintEngine.handleTrade cfgW8) FootprintEngine.init) = some fpW8 := by
    rw [hst]
    unfold FootprintEngine.calculate
    rw [hsorted]
    simp [fpW8, FootprintEngine.pocFold]
    norm_num
  exact calculate_volume_conservation cfgW8 tradesW8 fpW8 hcalc

/-! ## Claim C1 -/

/-- C1: with the window ready and a non-null footprint, `checkCandle`
registers the SHORT (upper-sweep) pending candidate exactly when the
swept-high count is ≥ the configured minimum, the signed imbalance is
strictly above meanAbsImbalance × deltaMultiplier, the total volume is
strictly above meanVolume × volumeMultiplier, and the close is strictly
below the POC; the LONG branch is the mirror and only runs when the SHORT
branch did not register; when neither registers the pending state is left
unchanged; the returned signal is always null; and with a null footprint or
a non-ready window the whole call is a no-op. -/
theorem checkCandle_candidacy_conditions (cfg : Config) (st : DetectorState)
    (candle : Candle) (footprint : Option Footprint) (sl : SweptLowsInfo)
    (sh : SweptHighsInfo) :
    (AbsorptionDetector.checkCandle cfg st candle footprint sl sh).2 = none ∧
    (footprint = none →
      AbsorptionDetector.checkCandle cfg st candle footprint sl sh = (st, none)) ∧
    (st.stats.isReady = false →
      AbsorptionDetector.checkCandle cfg st candle footprint sl sh = (st, none)) ∧
    (∀ fp, footprint = some fp → st.stats.isReady = true →
      ((sh.count ≥ st.minLevelsSwept ∧
        fp.delta > st.stats.avgAbsDelta * cfg.deltaMultiplier ∧
        fp.totalVolume > st.stats.avgVolume * cfg.volumeMultiplier ∧
        candle.close < fp.poc) →
        (AbsorptionDetector.checkCandle cfg st candle footprint sl sh).1 =
          { st with pending := AbsorptionDetector.shortPendingOf candle fp sh }) ∧
      (¬ (sh.count ≥ st.minLevelsSwept ∧
          fp.delta > st.stats.avgAbsDelta * cfg.deltaMultiplier ∧
          fp.totalVolume > st.stats.avgVolume * cfg.volumeMultiplier ∧
          candle.close < fp.poc) →
        (sl.count ≥ st.minLevelsSwept ∧
         fp.delta < -(st.stats.avgAbsDelta * cfg.deltaMultiplier) ∧
         fp.totalVolume > st.stats.avgVolume * cfg.volumeMultiplier ∧
         candle.close > fp.poc) →
        (AbsorptionDetector.checkCandle cfg st candle footprint sl sh).1 =
          { st with pending := AbsorptionDetector.longPendingOf candle fp sl }) ∧
      (¬ (sh.count ≥ st.minLevelsSwept ∧
          fp.delta > st.stats.avgAbsDelta * cfg.deltaMultiplier ∧
          fp.totalVolume > st.stats.avgVolume * cfg.volumeMultiplier ∧
          candle.close < fp.poc) →
       ¬ (sl.count ≥ st.minLevelsSwept ∧
          fp.delta < -(st.stats.avgAbsDelta * cfg.deltaMultiplier) ∧
          fp.totalVolume > st.stats.avgVolume * cfg.volumeMultiplier ∧
          candle.close > fp.poc) →
        AbsorptionDetector.checkCandle cfg st candle footprint sl sh = (st, none))) := by
  rcases footprint with _ | fp
  · refine ⟨rfl, fun _ => rfl, fun _ => rfl, ?_⟩
    intro fp hfp
    cases hfp
  · cases hr : st.stats.isReady
    · have hcc : AbsorptionDetector.checkCandle cfg st candle (some fp) sl sh = (st, none) := by
        unfold AbsorptionDetector.checkCandle
        rw [hr]
        rfl
      refine ⟨?_, ?_, ?_, ?_⟩
      · rw [hcc]
      · intro h
        cases h
      · intro h
        exact hcc
      · intro fp2 hfp2 hready
        cases hready
    · have hcc : AbsorptionDetector.checkCandle cfg st candle (some fp) sl sh =
          (if sh.count ≥ st.minLevelsSwept ∧
              fp.delta > st.stats.avgAbsDelta * cfg.deltaMultiplier ∧
              fp.totalVolume > st.stats.avgVolume * cfg.volumeMultiplier ∧
              candle.close < fp.poc then
             ({ st with pending := AbsorptionDetector.shortPendingOf candle fp sh }, none)
           else if sl.count ≥ st.minLevelsSwept ∧
              fp.delta < -(st.stats.avgAbsDelta * cfg.deltaMultiplier) ∧
              fp.totalVolume > st.stats.avgVolume * cfg.volumeMultiplier ∧
              candle.close > fp.poc then
             ({ st with pending := AbsorptionDetector.longPendingOf candle fp sl }, none)
           else (st, none)) := by
        unfold AbsorptionDetector.checkCandle
        rw [hr]
        rfl
      refine ⟨?_, ?_, ?_, ?_⟩
      · rw [hcc]
        split_ifs <;> rfl
      · intro h
        cases h
      · intro h
        cases h
      · intro fp2 hfp2 _
        have hfp2e : fp2 = fp := (Option.some.inj hfp2).symm
        subst hfp2e
        refine ⟨?_, ?_, ?_⟩
        · intro hshort
          rw [hcc, if_pos hshort]
        · intro hns hlong
          rw [hcc, if_neg hns, if_pos hlong]
        · intro hns hnl
          rw [hcc, if_neg hns, if_neg hnl]

/-- Witness for C1: from the ready idle detector `detW`, the inputs
`candleW` / `fpWd` / `shWd` (one swept high, delta 3 > 2, volume 22 > 15,
close 100 < POC 101) register the SHORT pending candidate, and the returned
signal is null. -/
theorem checkCandle_candidacy_conditions_witness :
    (AbsorptionDetector.checkCandle cfgW detW candleW (some fpWd) slWd shWd).1 =
      { detW with pending := AbsorptionDetector.shortPendingOf candleW fpWd shWd } ∧
    (AbsorptionDetector.checkCandle cfgW detW candleW (some fpWd) slWd shWd).2 = none := by
  obtain ⟨hnull, _, _, hmain⟩ :=
    checkCandle_candidacy_conditions cfgW detW candleW (some fpWd) slWd shWd
  obtain ⟨hs, _, _⟩ := hmain fpWd rfl (by decide)
  refine ⟨hs ?_, hnull⟩
  refine ⟨by decide, ?_, ?_, ?_⟩
  · show fpWd.delta > detW.stats.avgAbsDelta * cfgW.deltaMultiplier
    norm_num [fpWd, detW, statsW, cfgW, RollingStats.avgAbsDelta]
  · show fpWd.totalVolume > detW.stats.avgVolume * cfgW.volumeMultiplier
    norm_num [fpWd, detW, statsW, cfgW, RollingStats.avgVolume]
  · show candleW.close < fpWd.poc
    norm_num [candleW, fpWd]

/-! ## Claim C2 -/

/-- C2: while a candidate is pending, one `checkConfirmation` call cancels
it (null signal) exactly when the new candle's extreme strictly exceeds the
recorded sweep price, and otherwise — an exact tie included — immediately
confirms it, returning the built signal; the pending state is cleared to
idle in both cases.  For SHORT the candle high is tested against the sweep
high, for LONG the candle low against the sweep low (mirrored). -/
theorem checkConfirmation_cancel_iff_extension (st : DetectorState) (candle : Candle)
    (fp : Option Footprint) (sp : ℚ) :
    (st.pending.state = PendingState.SHORT → st.pending.sweepPrice = some sp →
      ((candle.high > sp →
        AbsorptionDetector.checkConfirmation st candle fp =
          ({ st with pending := AbsorptionDetector.emptyPending }, none)) ∧
       (candle.high ≤ sp →
        (AbsorptionDetector.checkConfirmation st candle fp).1 =
          { st with pending := AbsorptionDetector.emptyPending } ∧
        (AbsorptionDetector.checkConfirmation st candle fp).2 =
          AbsorptionDetector.buildResult
            { st.pending with confirmCount := st.pending.confirmCount + 1 }
            st.stats SignalType.SHORT ∧
        ∀ c0 fp0 sh0, st.pending.candle = some c0 → st.pending.footprint = some fp0 →
          st.pending.sweptHighs = some sh0 →
          ∃ sig, (AbsorptionDetector.checkConfirmation st candle fp).2 = some sig ∧
            sig.type = SignalType.SHORT ∧ sig.data.swingLevel = sh0.highestLevel ∧
            sig.data.sweepPrice = some sp))) ∧
    (st.pending.state = PendingState.LONG → st.pending.sweepPrice = some sp →
      ((candle.low < sp →
        AbsorptionDetector.checkConfirmation st candle fp =
          ({ st with pending := AbsorptionDetector.emptyPending }, none)) ∧
       (sp ≤ candle.low →
        (AbsorptionDetector.checkConfirmation st candle fp).1 =
          { st with pending := AbsorptionDetector.emptyPending } ∧
        (AbsorptionDetector.checkConfirmation st candle fp).2 =
          AbsorptionDetector.buildResult
            { st.pending with confirmCount := st.pending.confirmCount + 1 }
            st.stats SignalType.LONG ∧
        ∀ c0 fp0 sl0, st.pending.candle = some c0 → st.pending.footprint = some fp0 →
          st.pending.sweptLows = some sl0 →
          ∃ sig, (AbsorptionDetector.checkConfirmation st candle fp).2 = some sig ∧
            sig.type = SignalType.LONG ∧ sig.data.swingLevel = sl0.highestSweptLevel ∧
            sig.data.sweepPrice = some sp))) := by
  constructor
  · intro hstate hsp
    have hcc : AbsorptionDetector.checkConfirmation st candle fp =
        (if candle.high > sp then
          ({ st with pending := AbsorptionDetector.emptyPending }, none)
         else
          ({ st with pending := AbsorptionDetector.emptyPending },
            AbsorptionDetector.buildResult
              { st.pending with confirmCount := st.pending.confirmCount + 1 }
              st.stats SignalType.SHORT)) := by
      unfold AbsorptionDetector.checkConfirmation
      rw [if_neg (by rw [hstate]; intro h; cases h)]
      simp only []
      rw [if_pos (by simpa using hstate)]
      simp only [hsp]
      rfl
    constructor
    · intro hgt
      rw [hcc, if_pos hgt]
    · intro hle
      rw [hcc, if_neg (not_lt.mpr hle)]
      refine ⟨rfl, rfl, ?_⟩
      intro c0 fp0 sh0 hc0 hfp0 hsh0
      refine ⟨⟨SignalType.SHORT,
        ⟨(sh0.swept.map (fun s => s.price)).insertionSort AbsorptionDetector.ratLE,
         sh0.count, sh0.highestLevel, st.pending.sweepPrice, fp0.delta, fp0.totalVolume,
         st.stats.avgVolume, st.stats.avgAbsDelta, fp0.poc, c0.close,
         fp0.totalVolume / st.stats.avgVolume, |fp0.delta| / st.stats.avgAbsDelta,
         c0, fp0, st.pending.sweptLows, some sh0⟩⟩, ?_, rfl, rfl, hsp⟩
      simp [AbsorptionDetector.buildResult, hfp0, hc0, hsh0]
  · intro hstate hsp
    have hcc : AbsorptionDetector.checkConfirmation st candle fp =
        (if candle.low < sp then
          ({ st with pending := AbsorptionDetector.emptyPending }, none)
         else
          ({ st with pending := AbsorptionDetector.emptyPending },
            AbsorptionDetector.buildResult
              { st.pending with confirmCount := st.pending.confirmCount + 1 }
              st.stats SignalType.LONG)) := by
      unfold AbsorptionDetector.checkConfirmation
      rw [if_neg (by rw [hstate]; intro h; cases h)]
      simp only []
      rw [if_neg (by simp [hstate])]
      rw [if_pos (by simpa using hstate)]
      simp only [hsp]
      rfl
    constructor
    · intro hlt
      rw [hcc, if_pos hlt]
    · intro hge
      rw [hcc, if_neg (not_lt.mpr hge)]
      refine ⟨rfl, rfl, ?_⟩
      intro c0 fp0 sl0 hc0 hfp0 hsl0
      refine ⟨⟨SignalType.LONG,
        ⟨(sl0.swept.map (fun s => s.price)).insertionSort AbsorptionDetector.ratLE,
         sl0.count, sl0.highestSweptLevel, st.pending.sweepPrice, fp0.delta, fp0.totalVolume,
         st.stats.avgVolume, st.stats.avgAbsDelta, fp0.poc, c0.close,
         fp0.totalVolume / st.stats.avgVolume, |fp0.delta| / st.stats.avgAbsDelta,
         c0, fp0, some sl0, st.pending.sweptHighs⟩⟩, ?_, rfl, rfl, hsp⟩
      simp [AbsorptionDetector.buildResult, hfp0, hc0, hsl0]

/-- Witness for C2 (spec scenarios C and D): with a SHORT candidate pending
at sweep price 105, a next candle with high 106 cancels with no signal, and
one with high 104 immediately confirms, returning a SHORT signal whose
`swingLevel` is the maximum swept-pivot price 104; both calls clear the
pending state. -/
theorem checkConfirmation_cancel_iff_extension_witness :
    AbsorptionDetector.checkConfirmation detWpending candleW3 none =
      ({ detWpending with pending := AbsorptionDetector.emptyPending }, none) ∧
    ∃ sig, (AbsorptionDetector.checkConfirmation detWpending candleW2 none).2 = some sig ∧
      sig.type = SignalType.SHORT ∧ sig.data.swingLevel = some 104 ∧
      (AbsorptionDetector.checkConfirmation detWpending candleW2 none).1 =
        { detWpending with pending := AbsorptionDetector.emptyPending } := by
  obtain ⟨hc3, _⟩ := checkConfirmation_cancel_iff_extension detWpending candleW3 none 105
  obtain ⟨hcancel, _⟩ := hc3 rfl rfl
  obtain ⟨hc2, _⟩ := checkConfirmation_cancel_iff_extension detWpending candleW2 none 105
  obtain ⟨_, hconfirm⟩ := hc2 rfl rfl
  obtain ⟨h1, _h2, h3⟩ := hconfirm (by norm_num [candleW2])
  obtain ⟨sig, hsig, hty, hlvl, _hsp2⟩ := h3 candleW fpWd shWd rfl rfl rfl
  refine ⟨hcancel (by norm_num [candleW3]), sig, hsig, hty, ?_, h1⟩
  rw [hlvl]
  rfl

/-! ## Claims C10 and C5: helper lemmas -/

namespace AbsorptionDetector

lemma checkConfirmation_eq_noTimeout (st : DetectorState) (candle : Candle)
    (fp : Option Footprint) :
    checkConfirmation st candle fp = checkConfirmationNoTimeout st candle fp := by
  unfold checkConfirmation checkConfirmationNoTimeout
  rcases hs : st.pending.state <;> simp [hs]

lemma checkConfirmation_clears (st : DetectorState) (candle : Candle)
    (fp : Option Footprint) (h : st.pending.state ≠ PendingState.NONE) :
    (checkConfirmation st candle fp).1.pending = emptyPending := by
  unfold checkConfirmation
  rw [if_neg h]
  rcases hs : st.pending.state
  · exact absurd hs h
  · simp only [hs]
    rw [if_pos (by simpa using hs)]
    split_ifs <;> rfl
  · simp only [hs]
    rw [if_neg (by simp [hs]), if_pos (by simpa using hs)]
    split_ifs <;> rfl

lemma checkCandle_pending_cases (cfg : Config) (st : DetectorState) (candle : Candle)
    (fpOpt : Option Footprint) (sl : SweptLowsInfo) (sh : SweptHighsInfo) :
    (checkCandle cfg st candle fpOpt sl sh).1.pending = st.pending ∨
    (∃ fp0, fpOpt = some fp0 ∧
      ((checkCandle cfg st candle fpOpt sl sh).1.pending = shortPendingOf candle fp0 sh ∨
       (checkCandle cfg st candle fpOpt sl sh).1.pending = longPendingOf candle fp0 sl)) := by
  unfold checkCandle
  rcases fpOpt with _ | fp
  · exact Or.inl rfl
  · cases hr : st.stats.isReady
    · simp only [hr, Bool.not_false, if_true]
      exact Or.inl trivial
    · simp only [hr, Bool.not_true, Bool.false_eq_true, if_false]
      split_ifs
      · exact Or.inr ⟨fp, rfl, Or.inl rfl⟩
      · exact Or.inr ⟨fp, rfl, Or.inr rfl⟩
      · exact Or.inl rfl

lemma reachable_confirmCount_zero (cfg : Config) (st : DetectorState)
    (h : Reachable cfg st) : st.pending.confirmCount = 0 := by
  induction h with
  | init => rfl
  | updateStats st v d _ ih => exact ih
  | checkCandle st c fpOpt sl sh _ ih =>
    rcases checkCandle_pending_cases cfg st c fpOpt sl sh with hc | ⟨fp0, _, hc | hc⟩
    · rw [hc]
      exact ih
    · rw [hc]
      rfl
    · rw [hc]
      rfl
  | checkConfirmation st c fpOpt _ ih =>
    by_cases h0 : st.pending.state = PendingState.NONE
    · have : checkConfirmation st c fpOpt = (st, none) := by
        unfold checkConfirmation
        rw [if_pos h0]
      rw [this]
      exact ih
    · rw [checkConfirmation_clears st c fpOpt h0]
      rfl

/-- Helper evaluation: `checkCandle` on the idle detector `detW` with the
SHORT-triggering inputs yields `detWpending`. -/
lemma checkCandle_detW_eval :
    (checkCandle cfgW detW candleW (some fpWd) slWd shWd).1 = detWpending := by
  simp only [checkCandle]
  norm_num [detW, statsW, cfgW, candleW, fpWd, shWd, slWd, detWpending,
    RollingStats.isReady, RollingStats.avgVolume, RollingStats.avgAbsDelta]

/-- Helper evaluation: `checkCandle` invoked on the SHORT-pending detector
`detWpending` with LONG-triggering inputs replaces the pending candidate. -/
lemma checkCandle_detWpending_eval :
    (checkCandle cfgW detWpending candleW (some fpWlong) slWd2 shWd).1 =
      { detWpending with pending := longPendingOf candleW fpWlong slWd2 } := by
  simp only [checkCandle]
  norm_num [detWpending, statsW, cfgW, candleW, fpWlong, shWd, slWd2,
    RollingStats.isReady, RollingStats.avgVolume, RollingStats.avgAbsDelta]

/-- The pending SHORT state `detWpending` is reachable through the API. -/
lemma reachable_detWpending : Reachable cfgW detWpending := by
  have h1 : Reachable cfgW (updateStats (init cfgW) 10 1) :=
    Reachable.updateStats _ 10 1 Reachable.init
  have h2 : updateStats (init cfgW) 10 1 = detW := by
    simp [updateStats, init, RollingStats.push, RollingStats.init, cfgW, detW, statsW]
  rw [h2] at h1
  have h3 := Reachable.checkCandle detW candleW (some fpWd) slWd shWd h1
  rw [checkCandle_detW_eval] at h3
  exact h3

end AbsorptionDetector

/-! ## Claim C10 -/

/-- C10: in the pool-based detector, on every reachable state the pending
confirm counter is 0 (so the single increment inside a `checkConfirmation`
call never takes it past 1); any call made while a candidate is pending
clears the pending state on that same call (cancel or confirm); and
`checkConfirmation` coincides with the variant whose trailing
`maxConfirmCandles` cancellation branch is removed — that branch is dead
code, unreachable from every reachable state. -/
theorem checkConfirmation_resolves_in_one_call (cfg : Config) (st : DetectorState)
    (h : AbsorptionDetector.Reachable cfg st) :
    st.pending.confirmCount = 0 ∧
    (∀ candle fp, st.pending.state ≠ PendingState.NONE →
      (AbsorptionDetector.checkConfirmation st candle fp).1.pending =
        AbsorptionDetector.emptyPending) ∧
    (∀ candle fp, AbsorptionDetector.checkConfirmation st candle fp =
      AbsorptionDetector.checkConfirmationNoTimeout st candle fp) :=
  ⟨AbsorptionDetector.reachable_confirmCount_zero cfg st h,
   fun candle fp hne => AbsorptionDetector.checkConfirmation_clears st candle fp hne,
   fun candle fp => AbsorptionDetector.checkConfirmation_eq_noTimeout st candle fp⟩

/-- Witness for C10 at the reachable SHORT-pending state `detWpending`:
its counter is 0 and a confirmation call resolves it to the empty pending
record. -/
theorem checkConfirmation_resolves_in_one_call_witness :
    detWpending.pending.confirmCount = 0 ∧
    (AbsorptionDetector.checkConfirmation detWpending candleW2 none).1.pending =
      AbsorptionDetector.emptyPending := by
  obtain ⟨hcount, hclear, _⟩ := checkConfirmation_resolves_in_one_call cfgW detWpending
    AbsorptionDetector.reachable_detWpending
  exact ⟨hcount, hclear candleW2 none (by decide)⟩

/-! ## Claim C5 (corrected) -/

/-- Counterexample to C5 as stated: `checkCandle` has no idle-state guard.
At the reachable SHORT-pending state `detWpending`, a call with
LONG-triggering inputs does not leave the pending state unchanged — it
replaces the candidate. -/
theorem checkCandle_not_noop_when_pending_counterexample :
    detWpending.pending.state ≠ PendingState.NONE ∧
    (AbsorptionDetector.checkCandle cfgW detWpending candleW (some fpWlong)
        slWd2 shWd).1.pending ≠ detWpending.pending := by
  refine ⟨by decide, ?_⟩
  rw [AbsorptionDetector.checkCandle_detWpending_eval]
  intro heq
  have hst := congrArg Pending.state heq
  simp [AbsorptionDetector.longPendingOf, AbsorptionDetector.shortPendingOf,
    detWpending] at hst

/-- C5 amended: the detector stores a single pending record, so at most one
candidate is pending at any time; but `checkCandle` itself does not guard on
the state — invoked while a candidate is pending it either leaves the
pending record unchanged or replaces it with the one new candidate (SHORT or
LONG); it never stacks a second candidate. -/
theorem checkCandle_pending_unchanged_or_replaced (cfg : Config) (st : DetectorState)
    (candle : Candle) (fpOpt : Option Footprint) (sl : SweptLowsInfo)
    (sh : SweptHighsInfo) (hne : st.pending.state ≠ PendingState.NONE) :
    (AbsorptionDetector.checkCandle cfg st candle fpOpt sl sh).1.pending = st.pending ∨
    (∃ fp0, fpOpt = some fp0 ∧
      ((AbsorptionDetector.checkCandle cfg st candle fpOpt sl sh).1.pending =
          AbsorptionDetector.shortPendingOf candle fp0 sh ∨
       (AbsorptionDetector.checkCandle cfg st candle fpOpt sl sh).1.pending =
          AbsorptionDetector.longPendingOf candle fp0 sl)) :=
  AbsorptionDetector.checkCandle_pending_cases cfg st candle fpOpt sl sh

/-- Witness for the amended C5 at the pending state `detWpending` with the
LONG-triggering inputs: the pending record is replaced by the LONG
candidate. -/
theorem checkCandle_pending_unchanged_or_replaced_witness :
    (AbsorptionDetector.checkCandle cfgW detWpending candleW (some fpWlong)
        slWd2 shWd).1.pending = detWpending.pending ∨
    (∃ fp0, (some fpWlong : Option Footprint) = some fp0 ∧
      ((AbsorptionDetector.checkCandle cfgW detWpending candleW (some fpWlong)
          slWd2 shWd).1.pending = AbsorptionDetector.shortPendingOf candleW fp0 shWd ∨
       (AbsorptionDetector.checkCandle cfgW detWpending candleW (some fpWlong)
          slWd2 shWd).1.pending = AbsorptionDetector.longPendingOf candleW fp0 slWd2)) :=
  checkCandle_pending_unchanged_or_replaced cfgW detWpending candleW (some fpWlong)
    slWd2 shWd (by decide)

/-! ## Claim C3: helper lemmas -/

namespace AbsorptionDetector

lemma checkConfirmation_short_eval (st : DetectorState) (candle : Candle)
    (fp : Option Footprint) (sp : ℚ) (hstate : st.pending.state = PendingState.SHORT)
    (hsp : st.pending.sweepPrice = some sp) :
    checkConfirmation st candle fp =
      (if candle.high > sp then
        ({ st with pending := emptyPending }, none)
       else
        ({ st with pending := emptyPending },
          buildResult { st.pending with confirmCount := st.pending.confirmCount + 1 }
            st.stats SignalType.SHORT)) := by
  unfold checkConfirmation
  rw [if_neg (by rw [hstate]; intro h; cases h)]
  simp only []
  rw [if_pos (by simpa using hstate)]
  simp only [hsp]
  rfl

lemma checkConfirmation_long_eval (st : DetectorState) (candle : Candle)
    (fp : Option Footprint) (sp : ℚ) (hstate : st.pending.state = PendingState.LONG)
    (hsp : st.pending.sweepPrice = some sp) :
    checkConfirmation st candle fp =
      (if candle.low < sp then
        ({ st with pending := emptyPending }, none)
       else
        ({ st with pending := emptyPending },
          buildResult { st.pending with confirmCount := st.pending.confirmCount + 1 }
            st.stats SignalType.LONG)) := by
  unfold checkConfirmation
  rw [if_neg (by rw [hstate]; intro h; cases h)]
  simp only []
  rw [if_neg (by simp [hstate]), if_pos (by simpa using hstate)]
  simp only [hsp]
  rfl

lemma buildResult_short_eval (p : Pending) (stats : RollingStats) (c0 : Candle)
    (fp0 : Footprint) (sh0 : SweptHighsInfo) (hc0 : p.candle = some c0)
    (hfp0 : p.footprint = some fp0) (hsh0 : p.sweptHighs = some sh0) :
    buildResult p stats SignalType.SHORT = some
      ⟨SignalType.SHORT,
        ⟨(sh0.swept.map (fun s => s.price)).insertionSort ratLE,
         sh0.count, sh0.highestLevel, p.sweepPrice, fp0.delta, fp0.totalVolume,
         stats.avgVolume, stats.avgAbsDelta, fp0.poc, c0.close,
         fp0.totalVolume / stats.avgVolume, |fp0.delta| / stats.avgAbsDelta,
         c0, fp0, p.sweptLows, some sh0⟩⟩ := by
  simp [buildResult, hc0, hfp0, hsh0]

lemma buildResult_long_eval (p : Pending) (stats : RollingStats) (c0 : Candle)
    (fp0 : Footprint) (sl0 : SweptLowsInfo) (hc0 : p.candle = some c0)
    (hfp0 : p.footprint = some fp0) (hsl0 : p.sweptLows = some sl0) :
    buildResult p stats SignalType.LONG = some
      ⟨SignalType.LONG,
        ⟨(sl0.swept.map (fun s => s.price)).insertionSort ratLE,
         sl0.count, sl0.highestSweptLevel, p.sweepPrice, fp0.delta, fp0.totalVolume,
         stats.avgVolume, stats.avgAbsDelta, fp0.poc, c0.close,
         fp0.totalVolume / stats.avgVolume, |fp0.delta| / stats.avgAbsDelta,
         c0, fp0, some sl0, p.sweptHighs⟩⟩ := by
  simp [buildResult, hc0, hfp0, hsl0]

end AbsorptionDetector

/-! ## Claim C3 -/

/-- C3: through the Bot's confirmation step, a cancelled candidate leaves
both pivot pools unchanged, while a confirmed candidate removes from the
corresponding pool exactly the pivots recorded as swept at candidacy time,
matched by timestamp, leaving the other pool unchanged.  (The pool-based
Bot handler is modelled from the spec; `clearSweptLevels` is from the
source.) -/
theorem confirm_step_pool_frame (det : DetectorState) (sd : SwingState) (candle : Candle)
    (fp : Option Footprint) (sp : ℚ) :
    (det.pending.state = PendingState.SHORT → det.pending.sweepPrice = some sp →
      ∀ c0 fp0 sh0, det.pending.candle = some c0 → det.pending.footprint = some fp0 →
        det.pending.sweptHighs = some sh0 →
        ((candle.high > sp → (Bot.confirmStep det sd candle fp).2.1 = sd) ∧
         (candle.high ≤ sp →
           (Bot.confirmStep det sd candle fp).2.1.swingLowPool = sd.swingLowPool ∧
           ∀ s, s ∈ (Bot.confirmStep det sd candle fp).2.1.swingHighPool ↔
             (s ∈ sd.swingHighPool ∧ ¬ s.time ∈ sh0.swept.map (fun q => q.time))))) ∧
    (det.pending.state = PendingState.LONG → det.pending.sweepPrice = some sp →
      ∀ c0 fp0 sl0, det.pending.candle = some c0 → det.pending.footprint = some fp0 →
        det.pending.sweptLows = some sl0 →
        ((candle.low < sp → (Bot.confirmStep det sd candle fp).2.1 = sd) ∧
         (sp ≤ candle.low →
           (Bot.confirmStep det sd candle fp).2.1.swingHighPool = sd.swingHighPool ∧
           ∀ s, s ∈ (Bot.confirmStep det sd candle fp).2.1.swingLowPool ↔
             (s ∈ sd.swingLowPool ∧ ¬ s.time ∈ sl0.swept.map (fun q => q.time))))) := by
  constructor
  · intro hstate hsp c0 fp0 sh0 hc0 hfp0 hsh0
    have hcc := AbsorptionDetector.checkConfirmation_short_eval det candle fp sp hstate hsp
    have hbr := AbsorptionDetector.buildResult_short_eval
      { det.pending with confirmCount := det.pending.confirmCount + 1 } det.stats c0 fp0 sh0
      (by simpa using hc0) (by simpa using hfp0) (by simpa using hsh0)
    constructor
    · intro hgt
      simp only [Bot.confirmStep, hcc, if_pos hgt]
      rfl
    · intro hle
      simp only [Bot.confirmStep, hcc, if_neg (not_lt.mpr hle), hbr,
        Bot.onConfirmationResult]
      constructor
      · rfl
      · intro s
        simp [SwingDetector.clearSweptLevels, List.mem_filter]
  · intro hstate hsp c0 fp0 sl0 hc0 hfp0 hsl0
    have hcc := AbsorptionDetector.checkConfirmation_long_eval det candle fp sp hstate hsp
    have hbr := AbsorptionDetector.buildResult_long_eval
      { det.pending with confirmCount := det.pending.confirmCount + 1 } det.stats c0 fp0 sl0
      (by simpa using hc0) (by simpa using hfp0) (by simpa using hsl0)
    constructor
    · intro hlt
      simp only [Bot.confirmStep, hcc, if_pos hlt]
      rfl
    · intro hge
      simp only [Bot.confirmStep, hcc, if_neg (not_lt.mpr hge), hbr,
        Bot.onConfirmationResult]
      constructor
      · rfl
      · intro s
        simp [SwingDetector.clearSweptLevels, List.mem_filter]

/-- Witness for C3 at `detWpending` (swept pivot time 1) over the pool state
`sdW7`: the cancelling candle (high 106 > 105) leaves both pools unchanged;
the confirming candle (high 104 ≤ 105) removes exactly the time-1 pivot from
the high pool, keeping the time-2 pivot and the whole low pool. -/
theorem confirm_step_pool_frame_witness :
    (Bot.confirmStep detWpending sdW7 candleW3 none).2.1 = sdW7 ∧
    ¬ (⟨10, 1, 0⟩ : Pivot) ∈ (Bot.confirmStep detWpending sdW7 candleW2 none).2.1.swingHighPool ∧
    (⟨12, 2, 1⟩ : Pivot) ∈ (Bot.confirmStep detWpending sdW7 candleW2 none).2.1.swingHighPool ∧
    (Bot.confirmStep detWpending sdW7 candleW2 none).2.1.swingLowPool = sdW7.swingLowPool := by
  obtain ⟨hshort, _⟩ := confirm_step_pool_frame detWpending sdW7 candleW3 none 105
  obtain ⟨hcancel, _⟩ := hshort rfl rfl candleW fpWd shWd rfl rfl rfl
  obtain ⟨hshort2, _⟩ := confirm_step_pool_frame detWpending sdW7 candleW2 none 105
  obtain ⟨_, hconfirm⟩ := hshort2 rfl rfl candleW fpWd shWd rfl rfl rfl
  obtain ⟨hlow, hmem⟩ := hconfirm (by norm_num [candleW2])
  refine ⟨hcancel (by norm_num [candleW3]), ?_, ?_, hlow⟩
  · intro hx
    rw [hmem] at hx
    exact absurd (by decide : (1 : ℕ) ∈ (shWd.swept.map (fun q => q.time))) hx.2
  · rw [hmem]
    refine ⟨by simp [sdW7], by decide⟩

/-! ## Claim C4: helper lemmas -/

namespace SwingDetector

lemma getElem?_eq_some_getD (l : List Agg) (k : ℕ) (hb : k < l.length) :
    l[k]? = some (l.getD k dfltAgg) := by
  rw [List.getD_eq_getElem?_getD, List.getElem?_eq_getElem hb]
  rfl

lemma isSwingHighAt_iff (candles : List Agg) (idx L : ℕ) (h : ℚ)
    (hidx : L ≤ idx) (hlen : idx + L < candles.length) :
    isSwingHighAt candles idx L h = true ↔ domHigh candles idx L h := by
  unfold isSwingHighAt domHigh
  rw [List.all_eq_true]
  constructor
  · intro H i hi
    rw [Finset.mem_Icc] at hi
    have hj := H (i - 1) (List.mem_range.mpr (by omega))
    have hi1 : i - 1 + 1 = i := by omega
    rw [hi1] at hj
    rw [getElem?_eq_some_getD candles (idx - i) (by omega),
        getElem?_eq_some_getD candles (idx + i) (by omega)] at hj
    simp only [Option.elim_some, Bool.and_eq_true, decide_eq_true_eq] at hj
    exact hj
  · intro H j hj
    rw [List.mem_range] at hj
    have hmem : j + 1 ∈ Finset.Icc 1 L := Finset.mem_Icc.mpr (by omega)
    have := H (j + 1) hmem
    rw [getElem?_eq_some_getD candles (idx - (j + 1)) (by omega),
        getElem?_eq_some_getD candles (idx + (j + 1)) (by omega)]
    simp only [Option.elim_some, Bool.and_eq_true, decide_eq_true_eq]
    exact this

lemma isSwingLowAt_iff (candles : List Agg) (idx L : ℕ) (lo : ℚ)
    (hidx : L ≤ idx) (hlen : idx + L < candles.length) :
    isSwingLowAt candles idx L lo = true ↔ domLow candles idx L lo := by
  unfold isSwingLowAt domLow
  rw [List.all_eq_true]
  constructor
  · intro H i hi
    rw [Finset.mem_Icc] at hi
    have hj := H (i - 1) (List.mem_range.mpr (by omega))
    have hi1 : i - 1 + 1 = i := by omega
    rw [hi1] at hj
    rw [getElem?_eq_some_getD candles (idx - i) (by omega),
        getElem?_eq_some_getD candles (idx + i) (by omega)] at hj
    simp only [Option.elim_some, Bool.and_eq_true, decide_eq_true_eq] at hj
    exact hj
  · intro H j hj
    rw [List.mem_range] at hj
    have hmem : j + 1 ∈ Finset.Icc 1 L := Finset.mem_Icc.mpr (by omega)
    have := H (j + 1) hmem
    rw [getElem?_eq_some_getD candles (idx - (j + 1)) (by omega),
        getElem?_eq_some_getD candles (idx + (j + 1)) (by omega)]
    simp only [Option.elim_some, Bool.and_eq_true, decide_eq_true_eq]
    exact this

lemma shiftWhile_of_le (maxN : ℕ) (pool : List Pivot) (h : pool.length ≤ maxN) :
    shiftWhile maxN pool = pool := by
  unfold shiftWhile
  rw [if_neg (by omega)]

lemma mem_addToPool_iff (maxN : ℕ) (pool : List Pivot) (entry s : Pivot)
    (hsz : pool.length < maxN) :
    s ∈ addToPool maxN pool entry ↔ (s ∈ pool ∨ s = entry) := by
  unfold addToPool
  rw [shiftWhile_of_le maxN _ (by
    rw [List.length_insertionSort, List.length_append]
    simpa using hsz)]
  rw [(List.perm_insertionSort timeLE (pool ++ [entry])).mem_iff]
  simp [List.mem_append]

lemma update_eval (sd : SwingState) (candles : List Agg) (cand : Agg)
    (hL1 : sd.lookback * 2 + 1 ≤ candles.length)
    (hcand : candles[candles.length - 1 - sd.lookback]? = some cand)
    (hfreshH : ∀ s ∈ sd.swingHighPool, s.time ≠ cand.openTime)
    (hfreshL : ∀ s ∈ sd.swingLowPool, s.time ≠ cand.openTime) :
    (update sd candles).swingHighPool =
      (if isSwingHighAt candles (candles.length - 1 - sd.lookback) sd.lookback cand.high
       then addToPool sd.maxPoolSize sd.swingHighPool
              ⟨cand.high, cand.openTime, candles.length - 1 - sd.lookback⟩
       else sd.swingHighPool) ∧
    (update sd candles).swingLowPool =
      (if isSwingLowAt candles (candles.length - 1 - sd.lookback) sd.lookback cand.low
       then addToPool sd.maxPoolSize sd.swingLowPool
              ⟨cand.low, cand.openTime, candles.length - 1 - sd.lookback⟩
       else sd.swingLowPool) := by
  have hanyH : sd.swingHighPool.any (fun s => s.time = cand.openTime) = false := by
    rw [List.any_eq_false]
    intro s hs
    simp only [decide_eq_true_eq]
    exact hfreshH s hs
  have hanyL : sd.swingLowPool.any (fun s => s.time = cand.openTime) = false := by
    rw [List.any_eq_false]
    intro s hs
    simp only [decide_eq_true_eq]
    exact hfreshL s hs
  unfold update
  rw [if_neg (by omega), if_neg (by omega), hcand]
  simp only [hanyH, hanyL, Bool.not_false, Bool.true_and]
  rcases hH : isSwingHighAt candles (candles.length - 1 - sd.lookback) sd.lookback cand.high <;>
    rcases hL : isSwingLowAt candles (candles.length - 1 - sd.lookback) sd.lookback cand.low <;>
      simp [hH, hL]

end SwingDetector

/-! ## Claim C4 -/

/-- C4: on a coarse-bucket close with at least `2L+1` buffered buckets, the
bucket at `idx = len−1−L` is confirmed (appended to the high pool) iff its
high strictly dominates every one of the `L` neighbors on each side — a tie
anywhere suppresses it — and symmetrically for the low pool on lows; with
fewer than `2L+1` buckets the update is a no-op.  (Freshness and a non-full
pool are assumed so that dedup and eviction do not interfere.) -/
theorem update_confirms_pivot_iff_strict_dominance (sd : SwingState) (candles : List Agg)
    (cand : Agg) (hL1 : sd.lookback * 2 + 1 ≤ candles.length)
    (hcand : candles[candles.length - 1 - sd.lookback]? = some cand)
    (hfreshH : ∀ s ∈ sd.swingHighPool, s.time ≠ cand.openTime)
    (hfreshL : ∀ s ∈ sd.swingLowPool, s.time ≠ cand.openTime)
    (hszH : sd.swingHighPool.length < sd.maxPoolSize)
    (hszL : sd.swingLowPool.length < sd.maxPoolSize) :
    ((⟨cand.high, cand.openTime, candles.length - 1 - sd.lookback⟩ : Pivot) ∈
        (SwingDetector.update sd candles).swingHighPool ↔
      domHigh candles (candles.length - 1 - sd.lookback) sd.lookback cand.high) ∧
    ((⟨cand.low, cand.openTime, candles.length - 1 - sd.lookback⟩ : Pivot) ∈
        (SwingDetector.update sd candles).swingLowPool ↔
      domLow candles (candles.length - 1 - sd.lookback) sd.lookback cand.low) ∧
    (∀ cs2 : List Agg, cs2.length < sd.lookback * 2 + 1 →
      SwingDetector.update sd cs2 = sd) := by
  obtain ⟨hHigh, hLow⟩ := SwingDetector.update_eval sd candles cand hL1 hcand hfreshH hfreshL
  have hidx : sd.lookback ≤ candles.length - 1 - sd.lookback := by omega
  have hlen : candles.length - 1 - sd.lookback + sd.lookback < candles.length := by omega
  refine ⟨?_, ?_, ?_⟩
  · rw [hHigh]
    rcases hH : SwingDetector.isSwingHighAt candles (candles.length - 1 - sd.lookback)
        sd.lookback cand.high
    · rw [if_neg (by simp [hH])]
      constructor
      · intro hmem
        exact absurd rfl (hfreshH _ hmem)
      · intro hdom
        exact absurd ((SwingDetector.isSwingHighAt_iff candles _ _ _ hidx hlen).mpr hdom)
          (by simp [hH])
    · rw [if_pos rfl]
      constructor
      · intro _
        exact (SwingDetector.isSwingHighAt_iff candles _ _ _ hidx hlen).mp hH
      · intro _
        rw [SwingDetector.mem_addToPool_iff sd.maxPoolSize _ _ _ hszH]
        exact Or.inr rfl
  · rw [hLow]
    rcases hL : SwingDetector.isSwingLowAt candles (candles.length - 1 - sd.lookback)
        sd.lookback cand.low
    · rw [if_neg (by simp [hL])]
      constructor
      · intro hmem
        exact absurd rfl (hfreshL _ hmem)
      · intro hdom
        exact absurd ((SwingDetector.isSwingLowAt_iff candles _ _ _ hidx hlen).mpr hdom)
          (by simp [hL])
    · rw [if_pos rfl]
      constructor
      · intro _
        exact (SwingDetector.isSwingLowAt_iff candles _ _ _ hidx hlen).mp hL
      · intro _
        rw [SwingDetector.mem_addToPool_iff sd.maxPoolSize _ _ _ hszL]
        exact Or.inr rfl
  · intro cs2 hcs2
    unfold SwingDetector.update
    rw [if_pos hcs2]

/-- Witness for C4 (spec scenario B shape): over `candlesW4` (lookback 2,
5 buckets), the bucket at index 2 is confirmed as a high pivot — its high 5
strictly dominates 1, 2, 3, 4 — while no low pivot is confirmed there (its
low 1 does not strictly undercut the neighbors' lows 0). -/
theorem update_confirms_pivot_iff_strict_dominance_witness :
    (⟨5, 2, 2⟩ : Pivot) ∈ (SwingDetector.update sdW4 candlesW4).swingHighPool ∧
    ¬ (⟨1, 2, 2⟩ : Pivot) ∈ (SwingDetector.update sdW4 candlesW4).swingLowPool := by
  obtain ⟨hH, hL, _⟩ := update_confirms_pivot_iff_strict_dominance sdW4 candlesW4
    (⟨0, 2, 0, 5, 1, 0, 0, 1⟩ : Agg) (by decide) rfl
    (by intro s hs; simp [sdW4] at hs) (by intro s hs; simp [sdW4] at hs)
    (by decide) (by decide)
  constructor
  · refine hH.mpr ?_
    intro i hi
    fin_cases hi <;> constructor <;>
      norm_num [candlesW4, dfltAgg, List.getD, sdW4]
  · intro hmem
    have h1 := (hL.mp hmem) 1 (by decide)
    norm_num [candlesW4, dfltAgg, List.getD, sdW4] at h1

/-! ## Claim C9: helper lemmas -/

namespace CandleBuilder

lemma foldl_update15m_windowId : ∀ (t : List Candle) (a : Agg),
    (t.foldl update15m a).windowId = a.windowId
  | [], _ => rfl
  | c :: cs, a => by
    rw [List.foldl_cons, foldl_update15m_windowId cs (update15m a c)]
    rfl

lemma on1mClose_runStep (st : CBState) (rs : List (List Candle) × List Candle)
    (c : Candle) (hinv : runsInvariant st rs) :
    runsInvariant (on1mClose st c) (runStep rs c) := by
  obtain ⟨hem, hcur⟩ := hinv
  rcases rs with ⟨done, run⟩
  rcases run with _ | ⟨h, t⟩
  · have hc : st.current15m = none := hcur
    constructor
    · simp only [on1mClose, hc, runStep]
      exact hem
    · simp only [on1mClose, hc, runStep, aggOfRun]
      rfl
  · have hc : st.current15m =
        some (t.foldl update15m (create15mFrom1m h (windowId15 h.openTime))) := hcur
    have hwid : (t.foldl update15m (create15mFrom1m h (windowId15 h.openTime))).windowId =
        windowId15 h.openTime := by
      rw [foldl_update15m_windowId]
      rfl
    by_cases hw : windowId15 c.openTime = windowId15 h.openTime
    · constructor
      · simp only [on1mClose, hc, runStep, if_pos (hwid.symm ▸ hw), if_pos hw]
        exact hem
      · simp only [on1mClose, hc, runStep, if_pos (hwid.symm ▸ hw), if_pos hw]
        simp only [aggOfRun, List.cons_append, List.foldl_append]
        rfl
    · constructor
      · simp only [on1mClose, hc, runStep, if_neg (hwid.symm ▸ hw), if_neg hw, close15m]
        rw [hem, List.filterMap_append]
        rfl
      · simp only [on1mClose, hc, runStep, if_neg (hwid.symm ▸ hw), if_neg hw, close15m,
          aggOfRun]
        rfl

lemma foldl_runsInvariant : ∀ (cs : List Candle) (st : CBState)
    (rs : List (List Candle) × List Candle), runsInvariant st rs →
    runsInvariant (cs.foldl on1mClose st) (cs.foldl runStep rs)
  | [], _, _, h => h
  | c :: cs, st, rs, h =>
    foldl_runsInvariant cs (on1mClose st c) (runStep rs c) (on1mClose_runStep st rs c h)

lemma foldl_runStep_join : ∀ (cs : List Candle) (done : List (List Candle))
    (run : List Candle),
    ((cs.foldl runStep (done, run)).1).flatten ++ (cs.foldl runStep (done, run)).2 =
      done.flatten ++ run ++ cs
  | [], done, run => by simp
  | c :: cs, done, run => by
    rw [List.foldl_cons]
    rcases run with _ | ⟨h, t⟩
    · rw [show runStep (done, []) c = (done, [c]) from rfl]
      rw [foldl_runStep_join cs done [c]]
      simp
    · by_cases hw : windowId15 c.openTime = windowId15 h.openTime
      · rw [show runStep (done, h :: t) c = (done, (h :: t) ++ [c]) by
          simp [runStep, hw]]
        rw [foldl_runStep_join cs done ((h :: t) ++ [c])]
        simp
      · rw [show runStep (done, h :: t) c = (done ++ [h :: t], [c]) by
          simp [runStep, hw]]
        rw [foldl_runStep_join cs (done ++ [h :: t]) [c]]
        simp

lemma foldl_runStep_sameWindow : ∀ (cs : List Candle) (done : List (List Candle))
    (run : List Candle), (∀ r ∈ done, sameWindow r) → sameWindow run →
    (∀ r ∈ (cs.foldl runStep (done, run)).1, sameWindow r) ∧
      sameWindow (cs.foldl runStep (done, run)).2
  | [], done, run, hdone, hrun => ⟨hdone, hrun⟩
  | c :: cs, done, run, hdone, hrun => by
    rw [List.foldl_cons]
    rcases run with _ | ⟨h, t⟩
    · rw [show runStep (done, []) c = (done, [c]) from rfl]
      exact foldl_runStep_sameWindow cs done [c] hdone (by intro x hx; cases hx)
    · by_cases hw : windowId15 c.openTime = windowId15 h.openTime
      · rw [show runStep (done, h :: t) c = (done, (h :: t) ++ [c]) by
          simp [runStep, hw]]
        refine foldl_runStep_sameWindow cs done ((h :: t) ++ [c]) hdone ?_
        intro x hx
        rcases List.mem_append.mp hx with hx1 | hx1
        · exact hrun x hx1
        · rcases List.mem_singleton.mp hx1 with rfl
          exact hw
      · rw [show runStep (done, h :: t) c = (done ++ [h :: t], [c]) by
          simp [runStep, hw]]
        refine foldl_runStep_sameWindow cs (done ++ [h :: t]) [c] ?_
          (by intro x hx; cases hx)
        intro r hr
        rcases List.mem_append.mp hr with hr1 | hr1
        · exact hdone r hr1
        · rcases List.mem_singleton.mp hr1 with rfl
          exact hrun

end CandleBuilder

/-! ## Claim C9 -/

/-- C9: processing any stream of closed base (1m) buckets from a fresh
builder, the stream decomposes into maximal consecutive runs of buckets
sharing the coarse window id `floor(openTime / (15·60·1000))`; every emitted
coarse bucket is exactly the fold (`create15mFrom1m` for the first member,
`update15m` — high = max, low = min, close = latest, volume summed, count
incremented — for the rest, in arrival order) of one completed run, in
order; the open coarse bucket is the fold of the open run; the runs
partition the input stream; and all members of a run share the window id of
its first member. -/
theorem emitted_coarse_eq_fold_of_member_runs (cs : List Candle) :
    (CandleBuilder.processAll cs).emitted15m =
      ((CandleBuilder.splitRuns cs).1).filterMap CandleBuilder.aggOfRun ∧
    (CandleBuilder.processAll cs).current15m =
      CandleBuilder.aggOfRun (CandleBuilder.splitRuns cs).2 ∧
    ((CandleBuilder.splitRuns cs).1).flatten ++ (CandleBuilder.splitRuns cs).2 = cs ∧
    (∀ r ∈ (CandleBuilder.splitRuns cs).1, CandleBuilder.sameWindow r) ∧
    CandleBuilder.sameWindow (CandleBuilder.splitRuns cs).2 := by
  have hinv := CandleBuilder.foldl_runsInvariant cs CandleBuilder.initCB ([], [])
    ⟨rfl, rfl⟩
  have hjoin := CandleBuilder.foldl_runStep_join cs [] []
  have hsw := CandleBuilder.foldl_runStep_sameWindow cs [] []
    (by intro r hr; cases hr) trivial
  exact ⟨hinv.1, hinv.2, by simpa using hjoin, hsw.1, hsw.2⟩

/-- Witness for C9 on `csW9`: the two window-0 candles are merged (high 7 =
max, low 1 = min, close 4 = latest, volume 30 = sum, count 2) and emitted
when the window-1 candle arrives, which opens the new coarse bucket. -/
theorem emitted_coarse_eq_fold_of_member_runs_witness :
    (CandleBuilder.processAll csW9).emitted15m = [⟨0, 0, 1, 7, 1, 4, 30, 2⟩] ∧
    (CandleBuilder.processAll csW9).current15m = some ⟨1, 900000, 4, 6, 3, 5, 30, 1⟩ := by
  obtain ⟨h1, h2, _, _, _⟩ := emitted_coarse_eq_fold_of_member_runs csW9
  constructor
  · rw [h1]
    norm_num [csW9, CandleBuilder.splitRuns, CandleBuilder.runStep,
      CandleBuilder.windowId15, CandleBuilder.aggOfRun, CandleBuilder.create15mFrom1m,
      CandleBuilder.update15m, List.foldl, List.filterMap_cons, List.filterMap_nil]
  · rw [h2]
    norm_num [csW9, CandleBuilder.splitRuns, CandleBuilder.runStep,
      CandleBuilder.windowId15, CandleBuilder.aggOfRun, CandleBuilder.create15mFrom1m,
      CandleBuilder.update15m, List.foldl]

end AbsorptionBot
